import Mathlib

/-!
# Subscription service: query criteria and pagination

A shallow embedding of the query-criteria builders and of the repository of
the subscription service
(`internal/infrastructure/persistence/postgres/repositories`), with the
entities they work on (`internal/domain/entities`), the errors package
(`internal/errors`), the conversion and the validation of the list request
(`internal/interfaces/http`) and the usecase on top of the repository
(`internal/usecases/subscription`).

Go's `uint64` values are natural numbers below `2 ^ 64`; every arithmetic
operation reduces its result modulo `2 ^ 64`, and a division or a remainder by
zero is the runtime panic, modelled by `none`. Functions of the standard
library and of other packages that the code calls are either modelled next to
their use (the statement builders, `errors.Is`, the `make` of a slice) or
taken as parameters (`strings.ToUpper`, `uuid.Parse`, `time.Parse`, the
`Format` method of a time).
-/

namespace SubscriptionService

/-! ## Machine integers -/

/-- Number of values of Go's `uint64`. -/
def u64 : Nat := 2 ^ 64

/-- Number of values of Go's `uint32`. -/
def u32 : Nat := 2 ^ 32

/-- Number of values of Go's `uint16`. -/
def u16 : Nat := 2 ^ 16

/-- The `uint64` product `a * b`, wrapping around. -/
def umul (a b : Nat) : Nat := (a * b) % u64

/-- The `uint64` sum `a + b`, wrapping around. -/
def uadd (a b : Nat) : Nat := (a + b) % u64

/-- The `uint64` difference `a - b` of two values below `2 ^ 64`, wrapping around. -/
def usub (a b : Nat) : Nat := (a + u64 - b) % u64

/-- The `uint64` quotient `a / b`; `none` is the division-by-zero panic. -/
def udiv (a b : Nat) : Option Nat := if b = 0 then none else some (a / b)

/-- The `uint64` remainder `a % b`; `none` is the division-by-zero panic. -/
def umod (a b : Nat) : Option Nat := if b = 0 then none else some (a % b)

/-! ## Entities -/

/-- A `uuid.UUID`: sixteen bytes, read as one 128-bit number. -/
abbrev UUID := Fin (2 ^ 128)

/-- The all-zero `uuid.Nil`. -/
def uuidNil : UUID := 0

/-- One hexadecimal digit, in lower case. -/
def hexDigit (n : Nat) : Char :=
  match n with
  | 0 => '0' | 1 => '1' | 2 => '2' | 3 => '3' | 4 => '4' | 5 => '5' | 6 => '6' | 7 => '7'
  | 8 => '8' | 9 => '9' | 10 => 'a' | 11 => 'b' | 12 => 'c' | 13 => 'd' | 14 => 'e'
  | _ => 'f'

/-- The sixteen bytes of a UUID, the first one first. -/
def UUID.bytes (u : UUID) : List Nat :=
  (List.range 16).map fun i => u.val / 256 ^ (15 - i) % 256

/-- The `String` method of `uuid.UUID`: the thirty-two hexadecimal digits of
the bytes in lower case, in groups of 8, 4, 4, 4 and 12 separated by hyphens. -/
def UUID.String (u : UUID) : String :=
  let digits : List Char :=
    ((UUID.bytes u).map fun b => [hexDigit (b / 16), hexDigit (b % 16)]).flatten
  String.mk (digits.take 8 ++ '-' :: (digits.drop 8).take 4 ++ '-' :: (digits.drop 12).take 4
    ++ '-' :: (digits.drop 16).take 4 ++ '-' :: digits.drop 20)

/-- A `time.Time`, as an instant on the nanosecond time line. -/
structure Time where
  unixNano : Int
deriving DecidableEq, Repr

/-- The `sql.NullTime` of the standard library. -/
structure NullTime where
  Time : Time
  Valid : Bool
deriving DecidableEq, Repr

/-- The `entities.DateRange`; a nil pointer is `none`. -/
structure DateRange where
  From : Option Time
  To : Option Time
deriving DecidableEq, Repr

/-- The `entities.FilterParams`. -/
structure FilterParams where
  ServiceName : String
  UserId : UUID
  StartDate : DateRange
deriving DecidableEq, Repr

/-- The `entities.PaginationParams`; both fields are `uint64`. -/
structure PaginationParams where
  Page : Nat
  Limit : Nat
deriving DecidableEq, Repr

/-- The `entities.SortParams`; `SortType` and `SortOrderType` are string types. -/
structure SortParams where
  SortBy : String
  SortOrder : String
deriving DecidableEq, Repr

/-- The `entities.QueryCriteria`; its `Sort` field is `Sorting` here, `Sort`
being reserved. -/
structure QueryCriteria where
  Filter : FilterParams
  Pagination : PaginationParams
  Sorting : SortParams
deriving DecidableEq, Repr

/-- The `entities.Subscription`. -/
structure Subscription where
  ID : Int
  ServiceName : String
  UserId : UUID
  Price : Nat
  StartDate : Time
  EndDate : NullTime
  CreatedAt : Time
  UpdatedAt : Time
deriving DecidableEq, Repr

/-- The `entities.PaginationInfo`: `Page` and `TotalCount` are `uint64`,
`PageSize` is `uint16`, `TotalPages` is `uint32`. -/
structure PaginationInfo where
  Page : Nat
  PageSize : Nat
  TotalCount : Nat
  TotalPages : Nat
deriving DecidableEq, Repr

/-- The `entities.ResponseListSubscription`. -/
structure ResponseListSubscription where
  Data : List Subscription
  Info : PaginationInfo
deriving DecidableEq, Repr

/-! ## The select builder of squirrel -/

/-- A Go value of type `any` (`interface{}`), as handed to a builder as a bound
argument or stored in a map of fields: a `string`, a `uuid.UUID`, a `uint32`,
an `int64`, a `time.Time`, a non-nil `*time.Time`, or a value of another
dynamic type, known by the name of that type. -/
inductive Arg where
  | str (s : String)
  | uuid (u : UUID)
  | uint32 (n : Nat)
  | int64 (i : Int)
  | time (t : Time)
  | timePtr (t : Time)
  | other (goType : String)
deriving DecidableEq, Repr

/-- The comparison predicates of squirrel used by the repository, each a
one-entry map from a column to a value: `sq.Like`, `sq.Eq`, `sq.GtOrEq` and
`sq.LtOrEq`. -/
inductive Sqlizer where
  | Like (column : String) (value : Arg)
  | Eq (column : String) (value : Arg)
  | GtOrEq (column : String) (value : Arg)
  | LtOrEq (column : String) (value : Arg)
deriving DecidableEq, Repr

/-- Column a predicate constrains. -/
def Sqlizer.column : Sqlizer → String
  | .Like c _ => c
  | .Eq c _ => c
  | .GtOrEq c _ => c
  | .LtOrEq c _ => c

/-- Value a predicate holds for its column, as handed to it. -/
def Sqlizer.value : Sqlizer → Arg
  | .Like _ v => v
  | .Eq _ v => v
  | .GtOrEq _ v => v
  | .LtOrEq _ v => v

/-- SQL operator a predicate renders. -/
def Sqlizer.operator : Sqlizer → String
  | .Like _ _ => "LIKE"
  | .Eq _ _ => "="
  | .GtOrEq _ _ => ">="
  | .LtOrEq _ _ => "<="

/-- What the `ToSql` of a predicate makes of a value that implements
`driver.Valuer`: it takes what the `Value` method returns. Of the values the
repository hands over only the `uuid.UUID` has that method, and it returns the
text of the `String` method. -/
def driverValue : Arg → Arg
  | .uuid u => .str (UUID.String u)
  | v => v

/-- Argument the `ToSql` of a predicate binds to its placeholder: the value
after `driver.Valuer`, and for `sq.Eq` a pointer is replaced by what it points
to. -/
def Sqlizer.bound : Sqlizer → Arg
  | .Like _ v => driverValue v
  | .Eq _ v =>
    match driverValue v with
    | .timePtr t => .time t
    | w => w
  | .GtOrEq _ v => driverValue v
  | .LtOrEq _ v => driverValue v

/-- The parts a `sq.SelectBuilder` has accumulated: result columns, table,
WHERE predicates, ORDER BY terms, and the LIMIT and OFFSET when set. -/
structure SelectBuilder where
  columns : List String
  fromTable : String
  whereParts : List Sqlizer
  orderByParts : List String
  limit : Option Nat
  offset : Option Nat
deriving DecidableEq, Repr

/-- The `builder.Select(columns...).From(table)` start of a query. -/
def Select (columns : List String) (table : String) : SelectBuilder :=
  { columns := columns, fromTable := table, whereParts := [], orderByParts := [],
    limit := none, offset := none }

/-- The `Where` method: appends one predicate to the WHERE parts. -/
def SelectBuilder.Where (b : SelectBuilder) (pred : Sqlizer) : SelectBuilder :=
  { b with whereParts := b.whereParts ++ [pred] }

/-- The `Limit` method: sets the LIMIT. -/
def SelectBuilder.Limit (b : SelectBuilder) (n : Nat) : SelectBuilder :=
  { b with limit := some n }

/-- The `Offset` method: sets the OFFSET. -/
def SelectBuilder.Offset (b : SelectBuilder) (n : Nat) : SelectBuilder :=
  { b with offset := some n }

/-- The `OrderBy` method: appends one ORDER BY term. -/
def SelectBuilder.OrderBy (b : SelectBuilder) (term : String) : SelectBuilder :=
  { b with orderByParts := b.orderByParts ++ [term] }

/-! ## query_criteria.go -/

/-- The `conditionList` builder: the WHERE predicates of the list path. -/
def conditionList (query : SelectBuilder) (params : FilterParams) : SelectBuilder :=
  let query := if params.ServiceName ≠ "" then
    query.Where (.Like "service_name" (.str params.ServiceName)) else query
  let query := if params.UserId ≠ uuidNil then
    query.Where (.Eq "user_id" (.uuid params.UserId)) else query
  let query := match params.StartDate.From with
    | some t => query.Where (.GtOrEq "start_date" (.timePtr t))
    | none => query
  let query := match params.StartDate.To with
    | some t => query.Where (.LtOrEq "start_date" (.timePtr t))
    | none => query
  query

/-- The `paginationList` builder. It returns the query with LIMIT and OFFSET
set, together with the pagination params as the in-place rewrite leaves them;
`none` is a division-by-zero panic. -/
def paginationList (query : SelectBuilder) (totalCount : Nat) (params : PaginationParams) :
    Option (SelectBuilder × PaginationParams) :=
  let limit := params.Limit
  let page := params.Page
  let offset := umul (usub page 1) limit
  if totalCount < umul page limit then do
    let limit ← umod totalCount limit
    let offset := usub totalCount limit
    let quot ← udiv offset params.Limit
    let params := { params with Page := uadd quot 1 }
    let params := { params with Limit := limit }
    some ((query.Limit limit).Offset offset, params)
  else
    some ((query.Limit limit).Offset offset, params)

/-- The `sortList` builder; the term is `fmt.Sprintf("%s %s", SortBy, SortOrder)`. -/
def sortList (query : SelectBuilder) (params : SortParams) : SelectBuilder :=
  if params.SortBy = "" then query
  else query.OrderBy (params.SortBy ++ " " ++ params.SortOrder)

/-- The `conditionCost` builder: the WHERE predicates of the cost path. -/
def conditionCost (query : SelectBuilder) (params : FilterParams) : SelectBuilder :=
  let query := if params.ServiceName ≠ "" then
    query.Where (.Eq "service_name" (.str params.ServiceName)) else query
  let query := if params.UserId ≠ uuidNil then
    query.Where (.Eq "user_id" (.uuid params.UserId)) else query
  let query := match params.StartDate.From with
    | some t => query.Where (.GtOrEq "start_date" (.timePtr t))
    | none => query
  let query := match params.StartDate.To with
    | some t => query.Where (.LtOrEq "start_date" (.timePtr t))
    | none => query
  query

/-! ## Rendering a query -/

/-- The WHERE predicates as SQL text, with the dollar placeholders numbered
from `n` on. -/
def renderWhere : Nat → List Sqlizer → List String
  | _, [] => []
  | n, p :: ps =>
    (p.column ++ " " ++ p.operator ++ " $" ++ toString n) :: renderWhere (n + 1) ps

/-- The `ToSql` method of the select builder under the dollar placeholder
format: the SQL text and the bound arguments, or the error of a statement
without result columns. LIMIT and OFFSET are rendered in the text; the bound
arguments are those of the WHERE predicates, in order. -/
def SelectBuilder.ToSql (b : SelectBuilder) : Except String (String × List Arg) :=
  if b.columns = [] then
    .error "select statements must have at least one result column"
  else
    let sql := "SELECT " ++ ", ".intercalate b.columns ++ " FROM " ++ b.fromTable
    let sql := if b.whereParts = [] then sql
      else sql ++ " WHERE " ++ " AND ".intercalate (renderWhere 1 b.whereParts)
    let sql := if b.orderByParts = [] then sql
      else sql ++ " ORDER BY " ++ ", ".intercalate b.orderByParts
    let sql := match b.limit with
      | some n => sql ++ " LIMIT " ++ toString n
      | none => sql
    let sql := match b.offset with
      | some n => sql ++ " OFFSET " ++ toString n
      | none => sql
    .ok (sql, b.whereParts.map Sqlizer.bound)

/-! ## errors/error.go -/

/-- A Go `error` value that is not nil: an error of another package, known by
its text; an `*errs.Error` made by `New`; or an `*errs.Error` made by `Wrap`
around a cause. -/
inductive GoError where
  | foreign (text : String)
  | created (msg : String)
  | wrapped (msg : String) (cause : GoError)
deriving DecidableEq, Repr

/-- The `Error` method. -/
def GoError.Error : GoError → String
  | .foreign text => text
  | .created msg => msg
  | .wrapped msg cause => msg ++ ": " ++ cause.Error

/-- The `Wrap` function; a nil error is `none`. -/
def Wrap (err : Option GoError) (message : String) : Option GoError :=
  match err with
  | none => none
  | some e => some (.wrapped message e)

/-- The `New` function. -/
def New (message : String) : GoError := .created message

/-- The package-level error `ErrNotFound`. -/
def ErrNotFound : GoError := New "not found"

/-- The package-level error `ErrAlreadyExists`. -/
def ErrAlreadyExists : GoError := New "already exists"

/-- The package-level error `ErrInvalidInput`. -/
def ErrInvalidInput : GoError := New "invalid input"

/-- The package-level error `ErrUnauthorized`. -/
def ErrUnauthorized : GoError := New "unauthorized"

/-- The package-level error `ErrInternal`. -/
def ErrInternal : GoError := New "internal error"

/-- The `Unwrap` method of `*errs.Error`: the cause, nil (`none`) for an error
made by `New`. An error of another package is taken to have no such method. -/
def GoError.Unwrap : GoError → Option GoError
  | .wrapped _ cause => some cause
  | _ => none

/-- The `Is` method of `*errs.Error`: false on a nil target, otherwise whether
the message of the error is the text of the target. An error of another package
is taken to have no such method, which counts as false. -/
def GoError.Is (e : GoError) (target : Option GoError) : Bool :=
  match target with
  | none => false
  | some t =>
    match e with
    | .foreign _ => false
    | .created msg => msg == t.Error
    | .wrapped msg _ => msg == t.Error

/-- The loop of `errors.Is` of the standard library on a non-nil error and a
non-nil comparable target: the error is the target, or its `Is` method accepts
the target, or the loop goes on with what `Unwrap` returns and fails when that
is nil or there is no `Unwrap`. `same` is the `==` of two non-nil errors, the
identity of the pointers they hold. -/
def errorsIsLoop (same : GoError → GoError → Bool) (target : GoError) (err : GoError) :
    Bool :=
  if same err target then true
  else if err.Is (some target) then true
  else
    match _h : err.Unwrap with
    | some cause => errorsIsLoop same target cause
    | none => false
termination_by sizeOf err
decreasing_by
  cases err <;> simp [GoError.Unwrap] at _h
  subst _h
  simp

/-- The `errors.Is` of the standard library: when one of the two is nil, whether
both are; otherwise the loop. -/
def errorsIs (same : GoError → GoError → Bool) (err target : Option GoError) : Bool :=
  match err, target with
  | some e, some t => errorsIsLoop same t e
  | none, none => true
  | _, _ => false

/-- The package-level error `sql.ErrNoRows` of the standard library. -/
def sqlErrNoRows : GoError := .foreign "sql: no rows in result set"

/-! ## subscription.go -/

/-- What a `*sqlx.Rows` yields: the result of `StructScan` after each successful
`Next`, in order, and the error `Err` reports once `Next` has returned false. -/
structure Rows where
  scans : List (Except GoError Subscription)
  err : Option GoError

/-- The `sql.Result` of an executed statement: what `RowsAffected` returns, an
`int64` or an error. -/
structure Result where
  RowsAffected : Except GoError Int

/-- The `sqlx.ExtContext` the repository queries through: the scan of a
one-row query into a `uint64`, a row query, the scan of a one-row query into a
subscription, and the execution of a statement. -/
structure Querier where
  QueryRowScan : String → List Arg → Except GoError Nat
  Queryx : String → List Arg → Except GoError Rows
  QueryRowStructScan : String → List Arg → Except GoError Subscription
  Exec : String → List Arg → Except GoError Result

/-- The repository, with what its methods read around it: the package-level
variables `table`, `columnsSelect` and `columnsSelectCount`, and `maxCap`, the
largest capacity with which the Go runtime makes a slice of
`entities.Subscription`. -/
structure subscriptionRepository where
  querier : Querier
  table : String
  columnsSelect : List String
  columnsSelectCount : List String
  maxCap : Nat

/-- The package-level variable `table` as declared. -/
def table : String := "subscription"

/-- The package-level variable `columnsSelect` as declared. -/
def columnsSelect : List String :=
  ["id", "service_name", "user_id", "price", "start_date", "end_date"]

/-- The package-level variable `columnsSelectCount` as declared. -/
def columnsSelectCount : List String := ["COUNT(*)"]

/-- The `maxAlloc` of the Go runtime on a 64-bit platform: the largest number
of bytes of one allocation. -/
def maxAlloc : Nat := 2 ^ 48

/-- The size in bytes of an `entities.Subscription` on a 64-bit platform. -/
def sizeofSubscription : Nat := 152

/-- The `NewUserRepository` constructor, the package-level variables as declared
and the runtime that of a 64-bit platform. -/
def NewUserRepository (querier : Querier) : subscriptionRepository :=
  { querier := querier, table := table, columnsSelect := columnsSelect,
    columnsSelectCount := columnsSelectCount, maxCap := maxAlloc / sizeofSubscription }

/-- The `makeslice` of the Go runtime behind `make([]entities.Subscription, 0,
cap)`: the empty slice, or the panic "makeslice: cap out of range" (`none`) for
a capacity above the largest one the runtime allocates. -/
def makeslice (maxCap cap : Nat) : Option (List Subscription) :=
  if maxCap < cap then none else some []

/-- The row loop of `List`: scans every row in order into the slice and stops
at the first scan error. -/
def scanRows : List (Except GoError Subscription) → List Subscription →
    Except GoError (List Subscription)
  | [], subs => .ok subs
  | .error e :: _, _ => .error (.wrapped "subscriptionRepositories.List: scan query" e)
  | .ok sub :: rest, subs => scanRows rest (subs ++ [sub])

/-- The `totalPages` computation closing `List`; `none` is the
division-by-zero panic. -/
def totalPagesOf (totalCount limit : Nat) : Option Nat := do
  let totalPages ← udiv totalCount limit
  if umul totalPages limit < totalCount then some (uadd totalPages 1) else some totalPages

/-- The `List` method of the repository. `none` is a runtime panic,
`some (.error e)` the return of a nil response with the error `e`. The
criteria are passed by value, so the rewrite of the pagination stays local;
the slice of the rows is made with the limit that rewrite leaves as its
capacity. Closing the rows is not part of the model. -/
def subscriptionRepository.List (r : subscriptionRepository) (params : QueryCriteria) :
    Option (Except GoError ResponseListSubscription) :=
  let query := Select r.columnsSelectCount r.table
  let query := conditionList query params.Filter
  match query.ToSql with
  | .error err =>
    some (.error (.wrapped "subscriptionRepositories.List: build query count()" (.foreign err)))
  | .ok (sql, args) =>
  match r.querier.QueryRowScan sql args with
  | .error err => some (.error (.wrapped "subscriptionRepositories.List: scan query" err))
  | .ok totalCount =>
  let limit := params.Pagination.Limit
  let query := Select r.columnsSelect r.table
  let query := conditionList query params.Filter
  match paginationList query totalCount params.Pagination with
  | none => none
  | some (query, pagination) =>
  let query := sortList query params.Sorting
  match query.ToSql with
  | .error err =>
    some (.error (.wrapped "subscriptionRepositories.List: build query" (.foreign err)))
  | .ok (sql, args) =>
  match r.querier.Queryx sql args with
  | .error err => some (.error (.wrapped "subscriptionRepositories.List: get query" err))
  | .ok rows =>
  match makeslice r.maxCap pagination.Limit with
  | none => none
  | some subs =>
  match scanRows rows.scans subs with
  | .error err => some (.error err)
  | .ok subs =>
  match rows.err with
  | some err => some (.error (.wrapped "subscriptionRepositories.List: iteration rows" err))
  | none =>
  match totalPagesOf totalCount limit with
  | none => none
  | some totalPages =>
  some (.ok
    { Data := subs
      Info :=
        { Page := pagination.Page
          PageSize := pagination.Limit % u16
          TotalCount := totalCount
          TotalPages := totalPages % u32 } })

/-! ## Maps of fields -/

/-- A Go `map[string]any`: its entries, one per key, in the order a `range`
over the map visits them (an order Go leaves unspecified). -/
abbrev FieldMap := List (String × Arg)

/-- The assignment `m[key] = value`: replaces the value of a key the map has,
adds the entry otherwise. -/
def mapSet (m : FieldMap) (key : String) (value : Arg) : FieldMap :=
  if m.any (fun kv => kv.1 == key) then
    m.map fun kv => if kv.1 = key then (key, value) else kv
  else m ++ [(key, value)]

/-- Insertion of an entry into a list sorted by key, the keys compared
character by character as Go compares strings. -/
def insertByKey (kv : String × Arg) : FieldMap → FieldMap
  | [] => [kv]
  | x :: rest =>
    if kv.1.toList < x.1.toList then kv :: x :: rest else x :: insertByKey kv rest

/-- The entries of a map in the order of `sort.Strings` on the keys, the order
in which `SetMap` takes them. -/
def sortByKey : FieldMap → FieldMap
  | [] => []
  | x :: rest => insertByKey x (sortByKey rest)

/-! ## entities/subscription.go: the update fields -/

/-- The `isString` validator: the dynamic type is `string`. -/
def isString : Arg → Bool
  | .str _ => true
  | _ => false

/-- The `isUUID` validator: the dynamic type is `uuid.UUID`. -/
def isUUID : Arg → Bool
  | .uuid _ => true
  | _ => false

/-- The `isUint32` validator: the dynamic type is `uint32`. -/
def isUint32 : Arg → Bool
  | .uint32 _ => true
  | _ => false

/-- The `isTime` validator: the dynamic type is `time.Time`. -/
def isTime : Arg → Bool
  | .time _ => true
  | _ => false

/-- The `SubscriptionUpdateFields` table: the validator of each field that may
be updated. -/
def SubscriptionUpdateFields : List (String × (Arg → Bool)) :=
  [ ("service_name", isString),
    ("user_id", isUUID),
    ("price", isUint32),
    ("start_date", isTime),
    ("end_date", isTime),
    ("updated_at", isTime) ]

/-! ## validate.go and convert.go of the repositories -/

/-- The `validateUpdateFields` function, ranging over the entries in the order
of the list; `none` is the nil error. -/
def validateUpdateFields : FieldMap → Option GoError
  | [] => none
  | (key, value) :: rest =>
    match SubscriptionUpdateFields.lookup key with
    | none =>
      some (.foreign ("validateReposiroties.UpdateFields: field not found - " ++ key))
    | some validator =>
      if !validator value then
        some (.foreign ("validateReposiroties.UpdateFields: invalid value for field " ++ key))
      else validateUpdateFields rest

/-- The `SubscriptionToMap` function; `Format` is the `Format` method of
`time.Time` of the standard library, taking the layout. -/
def SubscriptionToMap (Format : Time → String → String) (subs : Subscription) : FieldMap :=
  let data : FieldMap :=
    [ ("service_name", .str subs.ServiceName),
      ("user_id", .uuid subs.UserId),
      ("price", .uint32 subs.Price),
      ("start_date", .time subs.StartDate) ]
  if subs.EndDate.Valid then
    mapSet data "end_date" (.str (Format subs.EndDate.Time "2006-01-02"))
  else data

/-! ## The insert, update and delete builders of squirrel -/

/-- The dollar placeholders `$n`, `$(n+1)`, ... for `count` values. -/
def placeholders (n count : Nat) : List String :=
  (List.range count).map fun i => "$" ++ toString (n + i)

/-- The rows of values of an insert as SQL text, the placeholders numbered
from `n` on. -/
def renderRows : Nat → List (List Arg) → List String
  | _, [] => []
  | n, row :: rows =>
    ("(" ++ ",".intercalate (placeholders n row.length) ++ ")")
      :: renderRows (n + row.length) rows

/-- The SET clauses of an update as SQL text, the placeholders numbered from
`n` on. -/
def renderSet : Nat → FieldMap → List String
  | _, [] => []
  | n, (column, _) :: rest => (column ++ " = $" ++ toString n) :: renderSet (n + 1) rest

/-- The parts a `sq.InsertBuilder` has accumulated: table, columns and rows of
values. -/
structure InsertBuilder where
  into : String
  columns : List String
  values : List (List Arg)
deriving DecidableEq, Repr

/-- The `builder.Insert(into)` start of a statement. -/
def Insert (into : String) : InsertBuilder :=
  { into := into, columns := [], values := [] }

/-- The `SetMap` method of the insert builder: the keys of the map, sorted,
become the columns, and their values the one row of values. -/
def InsertBuilder.SetMap (b : InsertBuilder) (clauses : FieldMap) : InsertBuilder :=
  { b with columns := (sortByKey clauses).map Prod.fst
           values := [(sortByKey clauses).map Prod.snd] }

/-- The `ToSql` method of the insert builder under the dollar placeholder
format. -/
def InsertBuilder.ToSql (b : InsertBuilder) : Except String (String × List Arg) :=
  if b.into = "" then .error "insert statements must specify a table"
  else if b.values = [] then
    .error "insert statements must have at least one set of values or select clause"
  else
    let sql := "INSERT INTO " ++ b.into ++ " "
    let sql := if b.columns = [] then sql
      else sql ++ "(" ++ ",".intercalate b.columns ++ ") "
    let sql := sql ++ "VALUES " ++ ",".intercalate (renderRows 1 b.values)
    .ok (sql, b.values.flatten)

/-- The parts a `sq.UpdateBuilder` has accumulated: table, SET clauses and
WHERE predicates. -/
structure UpdateBuilder where
  table : String
  setClauses : FieldMap
  whereParts : List Sqlizer
deriving DecidableEq, Repr

/-- The `builder.Update(table)` start of a statement. -/
def Update (table : String) : UpdateBuilder :=
  { table := table, setClauses := [], whereParts := [] }

/-- The `Where` method of the update builder. -/
def UpdateBuilder.Where (b : UpdateBuilder) (pred : Sqlizer) : UpdateBuilder :=
  { b with whereParts := b.whereParts ++ [pred] }

/-- The `SetMap` method of the update builder: one SET clause per key of the
map, the keys sorted. -/
def UpdateBuilder.SetMap (b : UpdateBuilder) (clauses : FieldMap) : UpdateBuilder :=
  { b with setClauses := b.setClauses ++ sortByKey clauses }

/-- The `ToSql` method of the update builder under the dollar placeholder
format: the values of the SET clauses are bound first, then those of the WHERE
predicates. -/
def UpdateBuilder.ToSql (b : UpdateBuilder) : Except String (String × List Arg) :=
  if b.table = "" then .error "update statements must specify a table"
  else if b.setClauses = [] then
    .error "update statements must have at least one Set clause"
  else
    let sql := "UPDATE " ++ b.table ++ " SET " ++ ", ".intercalate (renderSet 1 b.setClauses)
    let sql := if b.whereParts = [] then sql
      else sql ++ " WHERE " ++
        " AND ".intercalate (renderWhere (b.setClauses.length + 1) b.whereParts)
    .ok (sql, b.setClauses.map Prod.snd ++ b.whereParts.map Sqlizer.bound)

/-- The parts a `sq.DeleteBuilder` has accumulated: table and WHERE predicates. -/
structure DeleteBuilder where
  fromTable : String
  whereParts : List Sqlizer
deriving DecidableEq, Repr

/-- The `builder.Delete(from)` start of a statement. -/
def Delete (fromTable : String) : DeleteBuilder :=
  { fromTable := fromTable, whereParts := [] }

/-- The `Where` method of the delete builder. -/
def DeleteBuilder.Where (b : DeleteBuilder) (pred : Sqlizer) : DeleteBuilder :=
  { b with whereParts := b.whereParts ++ [pred] }

/-- The `ToSql` method of the delete builder under the dollar placeholder
format. -/
def DeleteBuilder.ToSql (b : DeleteBuilder) : Except String (String × List Arg) :=
  if b.fromTable = "" then .error "delete statements must specify a From table"
  else
    let sql := "DELETE FROM " ++ b.fromTable
    let sql := if b.whereParts = [] then sql
      else sql ++ " WHERE " ++ " AND ".intercalate (renderWhere 1 b.whereParts)
    .ok (sql, b.whereParts.map Sqlizer.bound)

/-! ## subscription.go: the other methods -/

/-- The `Create` method of the repository; `none` is the nil error. `Format` is
the `Format` method of `time.Time`. -/
def subscriptionRepository.Create (r : subscriptionRepository)
    (Format : Time → String → String) (subs : Subscription) : Option GoError :=
  let dataMap := SubscriptionToMap Format subs
  match ((Insert r.table).SetMap dataMap).ToSql with
  | .error err => Wrap (some (.foreign err)) "subscriptionRepositories.Create: build query"
  | .ok (query, args) =>
  match r.querier.Exec query args with
  | .error err => Wrap (some err) "subscriptionRepositories.Create: exec query"
  | .ok res =>
  match res.RowsAffected with
  | .error err => Wrap (some err) "subscriptionRepositories.Create: get affected rows"
  | .ok rowsAffected =>
  if rowsAffected ≠ 1 then
    some (.foreign
      ("subscriptionRepositories.Create: expected rowsAffected " ++ toString rowsAffected))
  else none

/-- The `GetByID` method of the repository; `same` is the identity of two
errors that `errors.Is` tests. -/
def subscriptionRepository.GetByID (r : subscriptionRepository)
    (same : GoError → GoError → Bool) (id : Int) : Except GoError Subscription :=
  match ((Select r.columnsSelect r.table).Where (.Eq "id" (.int64 id))).ToSql with
  | .error err =>
    .error (.wrapped "subscriptionRepositories.getByID: build query" (.foreign err))
  | .ok (query, args) =>
  match r.querier.QueryRowStructScan query args with
  | .error err =>
    if errorsIs same (some err) (some sqlErrNoRows) then .error ErrNotFound
    else .error (.wrapped "subscriptionRepositories.getByID: scan query" err)
  | .ok sub => .ok sub

/-- The `Update` method of the repository; `none` is the nil error. `now` is
what `time.Now().UTC()` returns. The call of the logger on a validation error
is not part of the model. -/
def subscriptionRepository.Update (r : subscriptionRepository) (now : Time) (id : Int)
    (fields : FieldMap) : Option GoError :=
  match validateUpdateFields fields with
  | some err => Wrap (some err) "subscriptionRepositories.Update: validate"
  | none =>
  let fields := mapSet fields "updated_at" (.time now)
  match (((SubscriptionService.Update r.table).Where (.Eq "id" (.int64 id))).SetMap
      fields).ToSql with
  | .error err => Wrap (some (.foreign err)) "subscriptionRepositories.Update: build query"
  | .ok (query, args) =>
  match r.querier.Exec query args with
  | .error err => Wrap (some err) "subscriptionRepositories.Update: exec query"
  | .ok res =>
  match res.RowsAffected with
  | .error err => Wrap (some err) "subscriptionRepositories.Update: get affected rows"
  | .ok rowsAffected =>
  if rowsAffected ≠ 1 then
    some (.foreign
      ("subscriptionRepositories.Update: expected rowsAffected " ++ toString rowsAffected))
  else none

/-- The `Delete` method of the repository; `none` is the nil error. -/
def subscriptionRepository.Delete (r : subscriptionRepository) (id : Int) : Option GoError :=
  match ((SubscriptionService.Delete r.table).Where (.Eq "id" (.int64 id))).ToSql with
  | .error err => Wrap (some (.foreign err)) "subscriptionRepositories.Delete: build query"
  | .ok (query, args) =>
  match r.querier.Exec query args with
  | .error err => Wrap (some err) "subscriptionRepositories.Delete: exec query"
  | .ok res =>
  match res.RowsAffected with
  | .error err => Wrap (some err) "subscriptionRepositories.Delete: get affected rows"
  | .ok rowsAffected =>
  if rowsAffected ≠ 1 then
    some (.foreign
      ("subscriptionRepositories.Delete: expected rowsAffected " ++ toString rowsAffected))
  else none

/-! ## The usecase -/

/-- The `repositories.SubscriptionRepository` interface the usecase works
through; a nil error is `none`, and `none` for `List` is a panic. -/
structure SubscriptionRepository where
  Create : Subscription → Option GoError
  GetByID : Int → Except GoError Subscription
  List : QueryCriteria → Option (Except GoError ResponseListSubscription)
  Update : Int → FieldMap → Option GoError
  Delete : Int → Option GoError
  GetCost : FilterParams → Except GoError Int

/-- The `SubscriptionUsecase` struct. -/
structure SubscriptionUsecase where
  repo : SubscriptionRepository

/-- The `NewSubscriptionUsecase` constructor. -/
def NewSubscriptionUsecase (repo : SubscriptionRepository) : SubscriptionUsecase :=
  { repo := repo }

/-- The `GetByID` method of the usecase. -/
def SubscriptionUsecase.GetByID (uc : SubscriptionUsecase) (id : Int) :
    Except GoError Subscription :=
  match uc.repo.GetByID id with
  | .error err => .error (.wrapped "SubscriptionUsecase.GetByID: repo exec" err)
  | .ok sub => .ok sub

/-- A repository that answers `GetByID` by the given function and fails every
other call. -/
def repositoryOf (getByID : Int → Except GoError Subscription) : SubscriptionRepository :=
  { Create := fun _ => some ErrInternal
    GetByID := getByID
    List := fun _ => some (.error ErrInternal)
    Update := fun _ _ => some ErrInternal
    Delete := fun _ => some ErrInternal
    GetCost := fun _ => .error ErrInternal }

/-! ## entities/query_criteria.go: the sort enumerations -/

/-- The constant `SortTypeID`. -/
def SortTypeID : String := "id"

/-- The constant `SortTypeServiceName`. -/
def SortTypeServiceName : String := "service_name"

/-- The constant `SortOrderTypeAsc`. -/
def SortOrderTypeAsc : String := "ASC"

/-- The constant `SortOrderTypeDesc`. -/
def SortOrderTypeDesc : String := "DESC"

/-- The `SortByTypes` map. -/
def SortByTypes : List (String × Bool) :=
  [(SortTypeID, true), (SortTypeServiceName, true)]

/-- The `SortOrderTypes` map. -/
def SortOrderTypes : List (String × Bool) :=
  [(SortOrderTypeAsc, true), (SortOrderTypeDesc, true)]

/-! ## The query parameters of the list request -/

/-- The `dto.QueryParamList`; `Page` and `Limit` are of Go's type `int`, taken
to be 64 bits wide. -/
structure QueryParamList where
  SortBy : String
  SortOrder : String
  ServiceName : String
  UserId : String
  StartDate : String
  EndDate : String
  Page : Int
  Limit : Int
deriving DecidableEq, Repr

/-- The registered `sort_by` validation: the value is a key of `SortByTypes`. -/
def sortByValidation (val : String) : Bool :=
  (SortByTypes.lookup val).isSome

/-- The registered `sort_order` validation: the value, put in upper case, is a
key of `SortOrderTypes`. `ToUpper` is `strings.ToUpper` of the standard
library. -/
def sortOrderValidation (ToUpper : String → String) (val : String) : Bool :=
  let val := ToUpper val
  (SortOrderTypes.lookup val).isSome

/-- The tag `omitempty` of the validator library before a validation of a
string field: the empty string passes, any other value goes through the
validation. -/
def omitempty (validation : String → Bool) (val : String) : Bool :=
  val = "" || validation val

/-- What `validate.Struct` checks on the `SortBy` and `SortOrder` fields of a
`QueryParamList`, by their tags `omitempty,sort_by` and `omitempty,sort_order`. -/
def validSort (ToUpper : String → String) (params : QueryParamList) : Bool :=
  omitempty sortByValidation params.SortBy &&
    omitempty (sortOrderValidation ToUpper) params.SortOrder

/-- The `strings.ToUpper` of the standard library on ASCII text, where it turns
the letters a to z into A to Z and keeps every other character. -/
def asciiToUpper (s : String) : String :=
  String.mk (s.toList.map Char.toUpper)

/-- The conversion `uint64(i)` of an `int`. -/
def toUint64 (i : Int) : Nat := (i % (2 ^ 64 : Int)).toNat

/-- The `SubscriptionQueryParamsToQueryCriteria` function. `Parse` is
`uuid.Parse`, and `timeParse` is `time.Parse` of the standard library, taking
the layout and the value; `none` is their error. -/
def SubscriptionQueryParamsToQueryCriteria (Parse : String → Option UUID)
    (timeParse : String → String → Option Time) (params : QueryParamList) :
    Except GoError QueryCriteria :=
  let sortBy := if params.SortBy = "" then SortTypeID else params.SortBy
  let sortOrder := if params.SortOrder = "" then SortOrderTypeAsc else params.SortOrder
  let page := if params.Page = 0 then 1 else toUint64 params.Page
  let limit := if params.Limit = 0 then 20 else toUint64 params.Limit
  let serviceName := if params.ServiceName ≠ "" then params.ServiceName else ""
  let userId : Except GoError UUID :=
    if params.UserId ≠ "" then
      match Parse params.UserId with
      | none => .error (.foreign ("UUID parse - " ++ params.UserId))
      | some tmpUUID => .ok tmpUUID
    else .ok uuidNil
  match userId with
  | .error err => .error err
  | .ok userId =>
  let dateFrom : Except GoError (Option Time) :=
    if params.StartDate ≠ "" then
      match timeParse "01-2006" params.StartDate with
      | none => .error (.foreign ("StartDate parse - " ++ params.StartDate))
      | some tmpTime => .ok (some tmpTime)
    else .ok none
  match dateFrom with
  | .error err => .error err
  | .ok dateFrom =>
  let dateTo : Except GoError (Option Time) :=
    if params.EndDate ≠ "" then
      match timeParse "01-2006" params.EndDate with
      | none => .error (.foreign ("EndDate parse - " ++ params.EndDate))
      | some tmpTime => .ok (some tmpTime)
    else .ok none
  match dateTo with
  | .error err => .error err
  | .ok dateTo =>
  .ok
    { Filter :=
        { ServiceName := serviceName, UserId := userId,
          StartDate := { From := dateFrom, To := dateTo } }
      Pagination := { Page := page, Limit := limit }
      Sorting := { SortBy := sortBy, SortOrder := sortOrder } }

/-! ## The fields an update accepts -/

/-- The six fields that may be updated. -/
def updateKeys : List String :=
  ["service_name", "user_id", "price", "start_date", "end_date", "updated_at"]

/-- A map entry the update accepts: one of the six fields, with a value of the
dynamic type the field requires, a string for service_name, a UUID for
user_id, a `uint32` for price, a `time.Time` for the three dates. -/
def fieldAccepted (key : String) (value : Arg) : Bool :=
  match value with
  | .str _ => key = "service_name"
  | .uuid _ => key = "user_id"
  | .uint32 _ => key = "price"
  | .time _ => key = "start_date" ∨ key = "end_date" ∨ key = "updated_at"
  | _ => false

/-! ## The usecase: update and delete -/

/-- A call the usecase makes on its repository. -/
inductive RepoCall where
  | GetByID (id : Int)
  | Update (id : Int) (fields : FieldMap)
  | Delete (id : Int)
deriving DecidableEq, Repr

/-- The `Update` method of the usecase: the error it returns, `none` being nil,
and the calls it has made on the repository, in order. -/
def SubscriptionUsecase.Update (uc : SubscriptionUsecase) (id : Int) (fields : FieldMap) :
    Option GoError × List RepoCall :=
  match uc.repo.GetByID id with
  | .error err =>
    (Wrap (some err) "SubscriptionUsecase.Update: repo getById", [.GetByID id])
  | .ok _ =>
    match uc.repo.Update id fields with
    | some err =>
      (Wrap (some err) "SubscriptionUsecase.Update: repo exec",
        [.GetByID id, .Update id fields])
    | none => (none, [.GetByID id, .Update id fields])

/-- The `Delete` method of the usecase: the error it returns, `none` being nil,
and the calls it has made on the repository, in order. -/
def SubscriptionUsecase.Delete (uc : SubscriptionUsecase) (id : Int) :
    Option GoError × List RepoCall :=
  match uc.repo.GetByID id with
  | .error err =>
    (Wrap (some err) "SubscriptionUsecase.Delete: repo getById", [.GetByID id])
  | .ok _ =>
    match uc.repo.Delete id with
    | some err =>
      (Wrap (some err) "SubscriptionUsecase.Delete: repo exec", [.GetByID id, .Delete id])
    | none => (none, [.GetByID id, .Delete id])

/-- A repository of the usecase tests: `GetByID` answers as given, `Update` and
`Delete` return the given error, and every other call fails. -/
def mockRepository (getByID : Except GoError Subscription) (result : Option GoError) :
    SubscriptionRepository :=
  { Create := fun _ => some ErrInternal
    GetByID := fun _ => getByID
    List := fun _ => some (.error ErrInternal)
    Update := fun _ _ => result
    Delete := fun _ => result
    GetCost := fun _ => .error ErrInternal }

/-! ## The id of the path -/

/-- What a middleware does with a request: it answers with a status and the
message of the JSON error body, as `response.ErrorResponse` does, or it stores
the id under `query_id` and calls the next handler. -/
inductive IdOutcome where
  | errorResponse (code : Nat) (msg : String)
  | next (queryId : Int)
deriving DecidableEq, Repr

/-- The constant `http.StatusBadRequest`. -/
def StatusBadRequest : Nat := 400

/-- The constant `http.StatusUnprocessableEntity`. -/
def StatusUnprocessableEntity : Nat := 422

/-- The handler of `ValidatedQueryIdMiddleware` on the path parameter `id`.
`ParseInt` is `strconv.ParseInt` of the standard library in base 10 and 64
bits, `none` being its error. The calls of the logger are not part of the
model. -/
def ValidatedQueryIdMiddleware (ParseInt : String → Option Int) (subStrID : String) :
    IdOutcome :=
  match ParseInt subStrID with
  | none => .errorResponse StatusBadRequest "invalid request body"
  | some subID =>
    if subID < 1 then
      .errorResponse StatusUnprocessableEntity "Invalid id: must be a positive integer"
    else .next subID

/-- The value of a run of decimal digits read after the value `acc`; `none` when
a character is not a digit. -/
def parseDigits : Nat → List Char → Option Nat
  | acc, [] => some acc
  | acc, c :: rest =>
    if c.isDigit then parseDigits (acc * 10 + (c.toNat - '0'.toNat)) rest else none

/-- The `strconv.ParseInt(s, 10, 64)` of the standard library: an optional sign
and at least one decimal digit, the value within the signed 64-bit range;
`none` is its syntax or range error. -/
def parseInt10 (s : String) : Option Int :=
  let (neg, digits) : Bool × List Char :=
    match s.toList with
    | '+' :: rest => (false, rest)
    | '-' :: rest => (true, rest)
    | chars => (false, chars)
  if digits = [] then none
  else
    match parseDigits 0 digits with
    | none => none
    | some un =>
      if neg then (if un > 2 ^ 63 then none else some (-(un : Int)))
      else (if un ≥ 2 ^ 63 then none else some (un : Int))

/-! ## The update request -/

/-- The `dto.SubscriptionUpdateReq`; `Price` is a `uint32`. -/
structure SubscriptionUpdateReq where
  ServiceName : String
  UserId : UUID
  Price : Nat
  StartDate : String
  EndDate : String
deriving DecidableEq, Repr

/-- The `SubscriptionRequestToMap` function of the handlers; `timeParse` is
`time.Parse` of the standard library, taking the layout and the value, `none`
being its error. -/
def SubscriptionRequestToMap (timeParse : String → String → Option Time)
    (req : SubscriptionUpdateReq) : Except GoError FieldMap :=
  let dataMap : FieldMap :=
    [ ("service_name", .str req.ServiceName),
      ("user_id", .uuid req.UserId),
      ("price", .uint32 req.Price) ]
  match timeParse "01-2006" req.StartDate with
  | none => .error (.foreign ("StartDate parse - " ++ req.StartDate))
  | some tmpDate =>
  let dataMap := mapSet dataMap "start_date" (.time tmpDate)
  if req.EndDate ≠ "" then
    match timeParse "01-2006" req.EndDate with
    | none => .error (.foreign ("EndDate parse - " ++ req.EndDate))
    | some tmpDate => .ok (mapSet dataMap "end_date" (.time tmpDate))
  else .ok dataMap

/-! ## httpserver/options.go -/

/-- Modelled from the spec: the declaration of the `Server` struct is not
among the sources. It has the five fields the options of options.go assign,
the durations in nanoseconds, and `rest` stands for whatever other fields it
declares. -/
structure Server (ρ : Type) where
  address : String
  prefork : Bool
  readTimeout : Int
  writeTimeout : Int
  shutdownTimeout : Int
  rest : ρ

/-- The `net.JoinHostPort` of the standard library: `host:port`, with the host
in square brackets when it contains a colon. -/
def JoinHostPort (host port : String) : String :=
  if ':' ∈ host.toList then "[" ++ host ++ "]:" ++ port else host ++ ":" ++ port

/-- The `Address` option: the function it returns, applied to a server; the
port is a `uint16`, rendered by `fmt.Sprintf("%d", port)`. -/
def Address {ρ : Type} (host : String) (port : Nat) (s : Server ρ) : Server ρ :=
  { s with address := JoinHostPort host (toString port) }

/-! ## The predicates a filter asks for -/

/-- The four predicates of the list path in their fixed order: service name,
owner id, date from, date to; a slot is `none` when its field is absent (the
empty name, the all-zero UUID, a nil date). -/
def listSlots (params : FilterParams) : List (Option Sqlizer) :=
  [ if params.ServiceName ≠ "" then some (.Like "service_name" (.str params.ServiceName))
      else none,
    if params.UserId ≠ uuidNil then some (.Eq "user_id" (.uuid params.UserId)) else none,
    params.StartDate.From.map fun t => .GtOrEq "start_date" (.timePtr t),
    params.StartDate.To.map fun t => .LtOrEq "start_date" (.timePtr t) ]

/-- The values of the four filter fields in the same order, `none` when the
field is absent. -/
def filterValues (params : FilterParams) : List (Option Arg) :=
  [ if params.ServiceName ≠ "" then some (.str params.ServiceName) else none,
    if params.UserId ≠ uuidNil then some (.uuid params.UserId) else none,
    params.StartDate.From.map .timePtr,
    params.StartDate.To.map .timePtr ]

/-- What a statement binds for the four filter fields, in the same order: the
service name, the text of the owner id, and the two date pointers; `none` when
the field is absent. -/
def boundValues (params : FilterParams) : List (Option Arg) :=
  [ if params.ServiceName ≠ "" then some (.str params.ServiceName) else none,
    if params.UserId ≠ uuidNil then some (.str (UUID.String params.UserId)) else none,
    params.StartDate.From.map .timePtr,
    params.StartDate.To.map .timePtr ]

/-- The predicate of the cost path for a predicate of the list path: the LIKE
on the service name becomes an equality, every other predicate is kept. -/
def Sqlizer.costForm : Sqlizer → Sqlizer
  | .Like column value => if column = "service_name" then .Eq column value
      else .Like column value
  | pred => pred

/-! ## What the store does with a predicate -/

/-- One element of a LIKE pattern: `%`, `_`, or a character to be matched as is. -/
inductive LikeToken where
  | anySeq
  | anyOne
  | lit (c : Char)
deriving DecidableEq, Repr

/-- Reading of a LIKE pattern: `%` stands for any run of characters, `_` for
any one character, a backslash makes the next character literal; a pattern
ending in a lone backslash is rejected (`none`). -/
def likeTokens : List Char → Option (List LikeToken)
  | [] => some []
  | c :: rest =>
    if c = '\\' then
      match rest with
      | [] => none
      | e :: rest => (likeTokens rest).map fun ts => LikeToken.lit e :: ts
    else if c = '%' then (likeTokens rest).map fun ts => LikeToken.anySeq :: ts
    else if c = '_' then (likeTokens rest).map fun ts => LikeToken.anyOne :: ts
    else (likeTokens rest).map fun ts => LikeToken.lit c :: ts

/-- Whether the whole of a value matches a tokenised LIKE pattern. -/
def likeMatch : List LikeToken → List Char → Bool
  | [], value => value.isEmpty
  | .anySeq :: ts, value => value.tails.any fun rest => likeMatch ts rest
  | .anyOne :: ts, value =>
    match value with
    | [] => false
    | _ :: rest => likeMatch ts rest
  | .lit c :: ts, value =>
    match value with
    | [] => false
    | x :: rest => x = c && likeMatch ts rest

/-- The SQL `value LIKE pattern` of the store, case sensitive; a rejected
pattern matches no row. -/
def sqlLike (pattern value : String) : Bool :=
  match likeTokens pattern.toList with
  | none => false
  | some ts => likeMatch ts value.toList

/-- The value a row of the subscription table holds in a column. -/
def Subscription.column (row : Subscription) (column : String) : Option Arg :=
  if column = "id" then some (.int64 row.ID)
  else if column = "service_name" then some (.str row.ServiceName)
  else if column = "user_id" then some (.uuid row.UserId)
  else if column = "price" then some (.uint32 row.Price)
  else if column = "start_date" then some (.time row.StartDate)
  else none

/-- Whether a row of the subscription table satisfies a predicate. -/
def Sqlizer.holds (row : Subscription) : Sqlizer → Bool
  | .Like column (.str pattern) =>
    match row.column column with
    | some (.str value) => sqlLike pattern value
    | _ => false
  | .Eq column (.str v) => row.column column = some (.str v)
  | .Eq column (.uuid v) => row.column column = some (.uuid v)
  | .Eq column (.int64 v) => row.column column = some (.int64 v)
  | .GtOrEq column (.timePtr t) =>
    match row.column column with
    | some (.time value) => t.unixNano ≤ value.unixNano
    | _ => false
  | .LtOrEq column (.timePtr t) =>
    match row.column column with
    | some (.time value) => value.unixNano ≤ t.unixNano
    | _ => false
  | _ => false

/-- A store whose count query finds `totalCount` rows and whose row query
yields `rows`, whatever the statement; its one-row query finds no row and its
statements affect none. -/
def storeOf (totalCount : Nat) (rows : Rows) : Querier :=
  { QueryRowScan := fun _ _ => .ok totalCount
    Queryx := fun _ _ => .ok rows
    QueryRowStructScan := fun _ _ => .error sqlErrNoRows
    Exec := fun _ _ => .ok ⟨.ok 0⟩ }

/-- A store whose statements affect `n` rows; its queries are those of the
empty store. -/
def storeAffecting (n : Int) : Querier :=
  { storeOf 0 ⟨[], none⟩ with Exec := fun _ _ => .ok ⟨.ok n⟩ }

/-- The identity of two errors by their value: what `==` gives when equal
errors are never allocated twice. -/
def sameError (a b : GoError) : Bool := decide (a = b)

/-- The map of fields of the update tests. -/
def fieldsUpdate : FieldMap := [("service_name", .str "Test service")]

/-- A server with every field at its zero value and no other field, as the
option tests make it. -/
def serverTest : Server Unit :=
  { address := "", prefork := false, readTimeout := 0, writeTimeout := 0,
    shutdownTimeout := 0, rest := () }

/-- A `time.Parse` that reads the two months of the examples of the update
request under the layout `01-2006`, each as the first instant of the month in
UTC, and nothing else. -/
def timeParseTest (layout value : String) : Option Time :=
  if layout = "01-2006" ∧ value = "12-2001" then some ⟨1007164800000000000⟩
  else if layout = "01-2006" ∧ value = "12-2002" then some ⟨1038700800000000000⟩
  else none

/-- The user id `60601fee-2bf1-4721-ae6f-7636e79a0cba` of the examples. -/
def userIdTest : UUID := 0x60601fee2bf14721ae6f7636e79a0cba

/-- The update request of the examples of the data transfer object. -/
def reqTest : SubscriptionUpdateReq :=
  { ServiceName := "TestService", UserId := userIdTest, Price := 100,
    StartDate := "12-2001", EndDate := "12-2002" }

/-- The filter with no field set. -/
def noFilter : FilterParams :=
  { ServiceName := "", UserId := uuidNil, StartDate := { From := none, To := none } }

/-- The subscription of the repository tests, with a fixed value in place of
the random owner id and of the current time. -/
def subTest : Subscription :=
  { ID := 0, ServiceName := "test service", UserId := 7, Price := 100,
    StartDate := ⟨0⟩, EndDate := ⟨⟨0⟩, false⟩, CreatedAt := ⟨0⟩, UpdatedAt := ⟨0⟩ }

/-- A row of the subscription table whose service is named "TestService". -/
def rowTestService : Subscription :=
  { subTest with ID := 1, ServiceName := "TestService" }

/-- The criteria of the listing success test: page 2 with limit 2, no filter
and no sort. -/
def criteriaTest : QueryCriteria :=
  { Filter := noFilter, Pagination := ⟨2, 2⟩, Sorting := ⟨"", ""⟩ }

/-- The repository of the listing success test: the store counts 3 rows and
yields one. -/
def repoTest : subscriptionRepository :=
  NewUserRepository (storeOf 3 ⟨[.ok subTest], none⟩)

/-- Query the pagination examples of the test suite start from. -/
def testQuery : SelectBuilder := Select ["*"] "test"

/-! ## Arithmetic of the pagination rewrite -/

theorem umul_lt (a b : Nat) : umul a b < u64 :=
  Nat.mod_lt _ (by decide)

theorem umul_of_lt {a b : Nat} (h : a * b < u64) : umul a b = a * b :=
  Nat.mod_eq_of_lt h

theorem usub_of_le {a b : Nat} (hb : b ≤ a) (ha : a < u64) : usub a b = a - b := by
  unfold usub
  have h1 : a + u64 - b = (a - b) + u64 := by omega
  rw [h1, Nat.add_mod_right]
  exact Nat.mod_eq_of_lt (by omega)

theorem uadd_of_lt {a b : Nat} (h : a + b < u64) : uadd a b = a + b :=
  Nat.mod_eq_of_lt h

/-- When the comparison of `paginationList` fails, the requested window is
emitted and the params are left alone. -/
theorem paginationList_keep (q : SelectBuilder) (totalCount page limit : Nat)
    (h : ¬ totalCount < umul page limit) :
    paginationList q totalCount ⟨page, limit⟩
      = some ((q.Limit limit).Offset (umul (usub page 1) limit), ⟨page, limit⟩) := by
  simp [paginationList, h]

/-- When the comparison of `paginationList` succeeds, the limit is not zero. -/
theorem limit_ne_zero_of_lt {totalCount page limit : Nat}
    (h : totalCount < umul page limit) : limit ≠ 0 := by
  rintro rfl
  simp [umul] at h

/-- When the comparison of `paginationList` succeeds, the window is moved to
the remainder of the division of the total by the requested limit. -/
theorem paginationList_rewrite (q : SelectBuilder) (totalCount page limit : Nat)
    (h : totalCount < umul page limit) :
    paginationList q totalCount ⟨page, limit⟩
      = some ((q.Limit (totalCount % limit)).Offset (totalCount - totalCount % limit),
          ⟨(totalCount - totalCount % limit) / limit + 1, totalCount % limit⟩) := by
  have hl : limit ≠ 0 := limit_ne_zero_of_lt h
  have hlt : totalCount < u64 := lt_trans h (umul_lt _ _)
  have hmod : totalCount % limit ≤ totalCount := Nat.mod_le _ _
  have hsub : usub totalCount (totalCount % limit) = totalCount - totalCount % limit :=
    usub_of_le hmod hlt
  have hquot : (totalCount - totalCount % limit) / limit ≤ totalCount :=
    le_trans (Nat.div_le_self _ _) (Nat.sub_le _ _)
  have hadd : uadd ((totalCount - totalCount % limit) / limit) 1
      = (totalCount - totalCount % limit) / limit + 1 := by
    apply uadd_of_lt
    have := umul_lt page limit
    omega
  simp [paginationList, h, umod, udiv, hl, hsub, hadd]

/-- The start of the last partial page, divided by the limit, is the quotient
of the total by the limit. -/
theorem sub_mod_div (totalCount limit : Nat) :
    (totalCount - totalCount % limit) / limit = totalCount / limit := by
  rcases Nat.eq_zero_or_pos limit with h | h
  · subst h; simp
  · have h1 : totalCount - totalCount % limit = limit * (totalCount / limit) := by
      have := Nat.div_add_mod totalCount limit
      omega
    rw [h1, Nat.mul_div_cancel_left _ h]

/-- Without overflow of `page * limit`, the requested offset is the plain
product `(page - 1) * limit`. -/
theorem offset_of_no_overflow {page limit : Nat} (hpage : 1 ≤ page) (hlimit : 1 ≤ limit)
    (hlt : page * limit < u64) : umul (usub page 1) limit = (page - 1) * limit := by
  have hpl : page ≤ page * limit := Nat.le_mul_of_pos_right page hlimit
  have hsub : usub page 1 = page - 1 := usub_of_le hpage (by omega)
  have hle : (page - 1) * limit ≤ page * limit := Nat.mul_le_mul_right _ (Nat.sub_le _ _)
  rw [hsub]
  exact umul_of_lt (by omega)

/-! ## The pagination rewrite -/

/-- C1: for every page and limit that are at least 1, with `page * limit` not
exceeding `2 ^ 64 - 1`, and every total count that is at least `page * limit`,
`paginationList` emits LIMIT `limit` and OFFSET `(page - 1) * limit` on the
query and leaves the `Page` and `Limit` fields unchanged. -/
theorem paginationList_in_range (q : SelectBuilder) (page limit totalCount : Nat)
    (hpage : 1 ≤ page) (hlimit : 1 ≤ limit) (hprod : page * limit ≤ 2 ^ 64 - 1)
    (htotal : page * limit ≤ totalCount) :
    paginationList q totalCount ⟨page, limit⟩
      = some ((q.Limit limit).Offset ((page - 1) * limit), ⟨page, limit⟩) := by
  have hlt : page * limit < u64 := by unfold u64; omega
  have hkeep : ¬ totalCount < umul page limit := by
    rw [umul_of_lt hlt]; omega
  rw [paginationList_keep q totalCount page limit hkeep,
    offset_of_no_overflow hpage hlimit hlt]

/-- C1 at the exact last page of the test suite: 60 rows, page 3, limit 20. -/
theorem paginationList_in_range_witness :
    (1 ≤ 3 ∧ 1 ≤ 20 ∧ 3 * 20 ≤ 2 ^ 64 - 1 ∧ 3 * 20 ≤ 60) ∧
    paginationList testQuery 60 ⟨3, 20⟩
      = some ((testQuery.Limit 20).Offset ((3 - 1) * 20), ⟨3, 20⟩) :=
  ⟨by decide, paginationList_in_range testQuery 3 20 60 (by decide) (by decide)
    (by decide) (by decide)⟩

/-- C2 as stated fails: page `2 ^ 62` with limit 4 over 5 rows has
`5 < page * limit`, yet the product wraps to 0 in `uint64`, the comparison
fails, and LIMIT 4 with OFFSET `2 ^ 64 - 4` is emitted with the params
unchanged, where the claim has LIMIT `5 % 4 = 1`. -/
theorem paginationList_out_of_range_counterexample :
    (1 ≤ 2 ^ 62 ∧ 1 ≤ 4 ∧ 2 ^ 62 < 2 ^ 64 ∧ 5 < 2 ^ 62 * 4) ∧
    paginationList testQuery 5 ⟨2 ^ 62, 4⟩
      = some ((testQuery.Limit 4).Offset (2 ^ 64 - 4), ⟨2 ^ 62, 4⟩) ∧
    paginationList testQuery 5 ⟨2 ^ 62, 4⟩
      ≠ some ((testQuery.Limit (5 % 4)).Offset (5 - 5 % 4),
          ⟨(5 - 5 % 4) / 4 + 1, 5 % 4⟩) := by
  decide

/-- C2, amended: for every page, limit and total count such that the total is
below the product `page * limit` as `uint64` computes it, that is reduced
modulo `2 ^ 64` (which forces page and limit to be at least 1), the emitted
LIMIT is `totalCount % limit`, the emitted OFFSET is the total minus that
LIMIT, `Page` is rewritten to that OFFSET divided by the original limit plus 1,
and `Limit` to the emitted LIMIT. -/
theorem paginationList_out_of_range (q : SelectBuilder) (page limit totalCount : Nat)
    (h : totalCount < (page * limit) % 2 ^ 64) :
    paginationList q totalCount ⟨page, limit⟩
      = some ((q.Limit (totalCount % limit)).Offset (totalCount - totalCount % limit),
          ⟨(totalCount - totalCount % limit) / limit + 1, totalCount % limit⟩) :=
  paginationList_rewrite q totalCount page limit h

/-- C2, amended, on the two out-of-range rows of the test suite: 13 rows with
limit 20, asked for page 8 and for page 1, both give LIMIT 13 OFFSET 0, page 1
and limit 13. -/
theorem paginationList_out_of_range_witness :
    (13 < (8 * 20) % 2 ^ 64 ∧ 13 < (1 * 20) % 2 ^ 64) ∧
    paginationList testQuery 13 ⟨8, 20⟩
      = some ((testQuery.Limit 13).Offset 0, ⟨1, 13⟩) ∧
    paginationList testQuery 13 ⟨1, 20⟩
      = some ((testQuery.Limit 13).Offset 0, ⟨1, 13⟩) :=
  ⟨by decide, paginationList_out_of_range testQuery 8 20 13 (by decide),
    paginationList_out_of_range testQuery 1 20 13 (by decide)⟩

/-- C3: for every page and limit that are at least 1, with `page * limit` not
exceeding `2 ^ 64 - 1`, the OFFSET and LIMIT emitted by `paginationList` satisfy
`OFFSET + LIMIT ≤ totalCount`, and when the total is below `page * limit` they
add up to the total exactly. -/
theorem paginationList_window (q : SelectBuilder) (page limit totalCount : Nat)
    (hpage : 1 ≤ page) (hlimit : 1 ≤ limit) (hprod : page * limit ≤ 2 ^ 64 - 1) :
    ∃ lim off params, paginationList q totalCount ⟨page, limit⟩
        = some ((q.Limit lim).Offset off, params) ∧
      off + lim ≤ totalCount ∧ (totalCount < page * limit → off + lim = totalCount) := by
  have hlt : page * limit < u64 := by unfold u64; omega
  by_cases hc : totalCount < page * limit
  · have hc2 : totalCount < umul page limit := by rw [umul_of_lt hlt]; exact hc
    have hmod : totalCount % limit ≤ totalCount := Nat.mod_le _ _
    exact ⟨_, _, _, paginationList_rewrite q totalCount page limit hc2, by omega,
      fun _ => by omega⟩
  · have hkeep : ¬ totalCount < umul page limit := by rw [umul_of_lt hlt]; exact hc
    refine ⟨_, _, _, paginationList_keep q totalCount page limit hkeep, ?_,
      fun h => absurd h hc⟩
    rw [offset_of_no_overflow hpage hlimit hlt]
    have hmul : (page - 1) * limit + limit = page * limit := by
      obtain ⟨k, rfl⟩ : ∃ k, page = k + 1 := ⟨page - 1, by omega⟩
      simp [Nat.succ_mul]
    omega

/-- C3 on 13 rows, page 8, limit 20: the window is OFFSET 0 and LIMIT 13. -/
theorem paginationList_window_witness :
    (1 ≤ 8 ∧ 1 ≤ 20 ∧ 8 * 20 ≤ 2 ^ 64 - 1) ∧
    ∃ lim off params, paginationList testQuery 13 ⟨8, 20⟩
        = some ((testQuery.Limit lim).Offset off, params) ∧
      off + lim ≤ 13 ∧ (13 < 8 * 20 → off + lim = 13) :=
  ⟨by decide, paginationList_window testQuery 8 20 13 (by decide) (by decide) (by decide)⟩

/-- C4 as stated fails: over an empty result set, page 1 with limit 20 is
rewritten to `Limit = 0`, and LIMIT 0 is emitted. -/
theorem paginationList_limit_pos_counterexample :
    (1 ≤ 1 ∧ 1 ≤ 20) ∧
    paginationList testQuery 0 ⟨1, 20⟩ = some ((testQuery.Limit 0).Offset 0, ⟨1, 0⟩) := by
  decide

/-- C4, amended: for every page, every limit that is at least 1 and every total
count that is not a multiple of the limit, or on which the comparison of the
total with the `uint64` product `page * limit` does not take the correction
branch, `paginationList` returns with the `Limit` field greater than 0, and the
emitted LIMIT is that field. -/
theorem paginationList_limit_pos (q : SelectBuilder) (page limit totalCount : Nat)
    (hlimit : 1 ≤ limit)
    (h : totalCount % limit ≠ 0 ∨ ¬ totalCount < (page * limit) % 2 ^ 64) :
    ∃ query params, paginationList q totalCount ⟨page, limit⟩ = some (query, params) ∧
      0 < params.Limit ∧ query.limit = some params.Limit := by
  by_cases hc : totalCount < umul page limit
  · refine ⟨_, _, paginationList_rewrite q totalCount page limit hc, ?_, rfl⟩
    rcases h with h | h
    · exact Nat.pos_of_ne_zero h
    · exact absurd hc h
  · exact ⟨_, _, paginationList_keep q totalCount page limit hc, hlimit, rfl⟩

/-- C4, amended, on 13 rows, page 8, limit 20: the limit becomes 13. -/
theorem paginationList_limit_pos_witness :
    (1 ≤ 20 ∧ (13 % 20 ≠ 0 ∨ ¬ 13 < (8 * 20) % 2 ^ 64)) ∧
    ∃ query params, paginationList testQuery 13 ⟨8, 20⟩ = some (query, params) ∧
      0 < params.Limit ∧ query.limit = some params.Limit :=
  ⟨by decide, paginationList_limit_pos testQuery 8 20 13 (by decide) (by decide)⟩

/-! ## The listing path -/

/-- The slice is made for a capacity the runtime allocates. -/
theorem makeslice_of_le {maxCap cap : Nat} (h : cap ≤ maxCap) :
    makeslice maxCap cap = some [] := by
  simp [makeslice, Nat.not_lt.2 h]

/-- The making of the slice panics for a capacity above the largest one. -/
theorem makeslice_of_lt {maxCap cap : Nat} (h : maxCap < cap) :
    makeslice maxCap cap = none := by
  simp [makeslice, h]

/-- The response of `List` when every step succeeds: the count statement builds
and its scan gives `totalCount`, the select statement builds, its rows are
fetched, the slice for them is made, they are scanned, and the iteration
reports no error. -/
theorem List_ok (r : subscriptionRepository) (params : QueryCriteria)
    {sqlC sqlS : String} {argsC argsS : List Arg} {totalCount totalPages : Nat}
    {query : SelectBuilder} {pagination : PaginationParams} {rows : Rows}
    {subs : List Subscription}
    (hc : (conditionList (Select r.columnsSelectCount r.table) params.Filter).ToSql
      = .ok (sqlC, argsC))
    (hq : r.querier.QueryRowScan sqlC argsC = .ok totalCount)
    (hp : paginationList (conditionList (Select r.columnsSelect r.table) params.Filter)
      totalCount params.Pagination = some (query, pagination))
    (hs : (sortList query params.Sorting).ToSql = .ok (sqlS, argsS))
    (hr : r.querier.Queryx sqlS argsS = .ok rows)
    (hcap : pagination.Limit ≤ r.maxCap)
    (hscan : scanRows rows.scans [] = .ok subs) (herr : rows.err = none)
    (ht : totalPagesOf totalCount params.Pagination.Limit = some totalPages) :
    r.List params = some (.ok
      { Data := subs
        Info :=
          { Page := pagination.Page
            PageSize := pagination.Limit % u16
            TotalCount := totalCount
            TotalPages := totalPages % u32 } }) := by
  simp only [subscriptionRepository.List, hc, hq, hp, hs, hr, makeslice_of_le hcap, hscan,
    herr, ht]

/-- The ceiling of the quotient of two naturals, by the integer quotient. -/
theorem ceil_div_eq (totalCount limit : Nat) (hl : 0 < limit) :
    ⌈(totalCount : ℚ) / (limit : ℚ)⌉₊
      = if totalCount / limit * limit < totalCount then totalCount / limit + 1
        else totalCount / limit := by
  have hlq : (0 : ℚ) < limit := by exact_mod_cast hl
  have key : ∀ n : ℕ, ⌈(totalCount : ℚ) / (limit : ℚ)⌉₊ ≤ n ↔ totalCount ≤ n * limit := by
    intro n
    rw [Nat.ceil_le, div_le_iff₀ hlq]
    exact_mod_cast Iff.rfl
  have hdm := Nat.div_add_mod totalCount limit
  have hmod := Nat.mod_lt totalCount hl
  have hcomm : limit * (totalCount / limit) = totalCount / limit * limit := Nat.mul_comm _ _
  apply le_antisymm
  · rw [key]
    split_ifs with h
    · rw [Nat.add_mul]; omega
    · omega
  · have hc : totalCount ≤ ⌈(totalCount : ℚ) / (limit : ℚ)⌉₊ * limit := (key _).1 le_rfl
    split_ifs with h
    · by_contra hlt
      have h1 : ⌈(totalCount : ℚ) / (limit : ℚ)⌉₊ ≤ totalCount / limit := by omega
      have h2 := Nat.mul_le_mul_right limit h1
      omega
    · exact Nat.div_le_of_le_mul (by rw [Nat.mul_comm]; exact hc)

/-- The total-pages computation of `List` is the ceiling of the quotient, for a
limit that is not zero and a total in the `uint64` range. -/
theorem totalPagesOf_eq_ceil (totalCount limit : Nat) (hl : limit ≠ 0)
    (ht : totalCount < u64) :
    totalPagesOf totalCount limit = some ⌈(totalCount : ℚ) / (limit : ℚ)⌉₊ := by
  have hpos : 0 < limit := Nat.pos_of_ne_zero hl
  have hle : totalCount / limit * limit ≤ totalCount := Nat.div_mul_le_self _ _
  have hmul : umul (totalCount / limit) limit = totalCount / limit * limit :=
    umul_of_lt (by omega)
  rw [ceil_div_eq totalCount limit hpos]
  by_cases h : totalCount / limit * limit < totalCount
  · have h2 : 2 ≤ limit := by
      by_contra h1
      have : limit = 1 := by omega
      subst this
      simp at h
    have hdiv : totalCount / limit ≤ totalCount / 2 := Nat.div_le_div_left h2 (by decide)
    have hadd : uadd (totalCount / limit) 1 = totalCount / limit + 1 :=
      uadd_of_lt (by omega)
    simp [totalPagesOf, udiv, hl, hmul, h, hadd]
  · simp [totalPagesOf, udiv, hl, hmul, h]

/-- The total-pages computation of `List` returns for every limit that is not zero. -/
theorem totalPagesOf_of_ne_zero (totalCount limit : Nat) (hl : limit ≠ 0) :
    ∃ totalPages, totalPagesOf totalCount limit = some totalPages := by
  by_cases h : umul (totalCount / limit) limit < totalCount
  · exact ⟨uadd (totalCount / limit) 1, by simp [totalPagesOf, udiv, hl, h]⟩
  · exact ⟨totalCount / limit, by simp [totalPagesOf, udiv, hl, h]⟩

/-- The LIMIT set by `paginationList` is the `Limit` field it leaves. -/
theorem paginationList_limit {q query : SelectBuilder} {totalCount : Nat}
    {params pagination : PaginationParams}
    (h : paginationList q totalCount params = some (query, pagination)) :
    query.limit = some pagination.Limit := by
  obtain ⟨page, limit⟩ := params
  by_cases hc : totalCount < umul page limit
  · rw [paginationList_rewrite q totalCount page limit hc] at h
    cases h
    rfl
  · rw [paginationList_keep q totalCount page limit hc] at h
    cases h
    rfl

/-- The `sortList` builder leaves the LIMIT alone. -/
theorem sortList_limit (q : SelectBuilder) (params : SortParams) :
    (sortList q params).limit = q.limit := by
  unfold sortList
  split <;> rfl

/-- C5 fails on the code: over 40 rows, a request for page 3 with limit 20 is
rewritten to page 3 with limit 0, so `List` serves the empty window LIMIT 0
OFFSET 40 and reports page 3 of 2 total pages, where 2 is the ceiling of
`40 / 20`. -/
theorem List_page_past_total_pages :
    (1 ≤ 3 ∧ 1 ≤ 20 ∧ 1 ≤ 40) ∧
    paginationList (conditionList (Select columnsSelect table) noFilter) 40 ⟨3, 20⟩
      = some (((Select columnsSelect table).Limit 0).Offset 40, ⟨3, 0⟩) ∧
    (NewUserRepository (storeOf 40 ⟨[], none⟩)).List ⟨noFilter, ⟨3, 20⟩, ⟨"id", "ASC"⟩⟩
      = some (.ok ⟨[], ⟨3, 0, 40, 2⟩⟩) ∧
    ⌈((40 : ℕ) : ℚ) / ((20 : ℕ) : ℚ)⌉₊ = 2 ∧ ¬ 3 ≤ 2 := by
  refine ⟨by decide, by decide, ?_, ?_, by decide⟩
  · rfl
  · rw [ceil_div_eq 40 20 (by decide)]
    decide

/-- C6 as stated fails: over `2 ^ 32` rows with limit 1 the ceiling of the
quotient is `2 ^ 32`, and the `uint32` field `TotalPages` of the response
holds 0. -/
theorem List_totalPages_counterexample :
    (NewUserRepository (storeOf (2 ^ 32) ⟨[], none⟩)).List
        ⟨noFilter, ⟨1, 1⟩, ⟨"id", "ASC"⟩⟩
      = some (.ok ⟨[], ⟨1, 1, 2 ^ 32, 0⟩⟩) ∧
    ⌈((2 ^ 32 : ℕ) : ℚ) / ((1 : ℕ) : ℚ)⌉₊ = 2 ^ 32 ∧ (0 : ℕ) ≠ 2 ^ 32 := by
  refine ⟨?_, ?_, by decide⟩
  · rfl
  · rw [ceil_div_eq (2 ^ 32) 1 (by decide)]
    decide

/-- C6, amended: for every total count in the `uint64` range returned by the
COUNT query and every requested limit that is not zero, when both queries of
`List` succeed, the limit `paginationList` leaves is a capacity the runtime
allocates for the slice of the rows, and the rows are scanned without error,
`List` returns a response whose `TotalPages` field is the ceiling of
`totalCount / limit`, the limit being the requested one, reduced modulo
`2 ^ 32` by the conversion to `uint32`; it is the exact ceiling whenever that
is below `2 ^ 32`. -/
theorem List_totalPages (r : subscriptionRepository) (params : QueryCriteria)
    (sqlC sqlS : String) (argsC argsS : List Arg) (totalCount : Nat)
    (query : SelectBuilder) (pagination : PaginationParams) (rows : Rows)
    (subs : List Subscription)
    (hc : (conditionList (Select r.columnsSelectCount r.table) params.Filter).ToSql
      = .ok (sqlC, argsC))
    (hq : r.querier.QueryRowScan sqlC argsC = .ok totalCount)
    (hp : paginationList (conditionList (Select r.columnsSelect r.table) params.Filter)
      totalCount params.Pagination = some (query, pagination))
    (hs : (sortList query params.Sorting).ToSql = .ok (sqlS, argsS))
    (hr : r.querier.Queryx sqlS argsS = .ok rows)
    (hcap : pagination.Limit ≤ r.maxCap)
    (hscan : scanRows rows.scans [] = .ok subs) (herr : rows.err = none)
    (hlimit : params.Pagination.Limit ≠ 0) (htotal : totalCount < 2 ^ 64) :
    ∃ resp, r.List params = some (.ok resp) ∧
      resp.Info.TotalPages
        = ⌈(totalCount : ℚ) / (params.Pagination.Limit : ℚ)⌉₊ % 2 ^ 32 ∧
      (⌈(totalCount : ℚ) / (params.Pagination.Limit : ℚ)⌉₊ < 2 ^ 32 →
        resp.Info.TotalPages = ⌈(totalCount : ℚ) / (params.Pagination.Limit : ℚ)⌉₊) := by
  have ht := totalPagesOf_eq_ceil totalCount params.Pagination.Limit hlimit htotal
  refine ⟨_, List_ok r params hc hq hp hs hr hcap hscan herr ht, rfl, fun h => ?_⟩
  exact Nat.mod_eq_of_lt h

/-- C6, amended, on the success case of the test suite: 3 rows, page 2 with
limit 2, one row served; the response has 2 total pages. -/
theorem List_totalPages_witness :
    ∃ resp, repoTest.List criteriaTest = some (.ok resp) ∧
      resp.Info.TotalPages = ⌈((3 : ℕ) : ℚ) / ((2 : ℕ) : ℚ)⌉₊ % 2 ^ 32 ∧
      (⌈((3 : ℕ) : ℚ) / ((2 : ℕ) : ℚ)⌉₊ < 2 ^ 32 →
        resp.Info.TotalPages = ⌈((3 : ℕ) : ℚ) / ((2 : ℕ) : ℚ)⌉₊) :=
  List_totalPages repoTest criteriaTest "SELECT COUNT(*) FROM subscription"
    ("SELECT id, service_name, user_id, price, start_date, end_date FROM subscription " ++
      "LIMIT 1 OFFSET 2")
    [] [] 3 (((Select columnsSelect table).Limit 1).Offset 2) ⟨2, 1⟩ ⟨[.ok subTest], none⟩
    [subTest] rfl rfl (by decide) rfl rfl (by decide) rfl rfl (by decide) (by decide)

/-- C7 as stated fails: over 65536 rows, page 1 with limit 65536 emits LIMIT
65536 in the SELECT, and the `uint16` field `PageSize` of the response holds 0. -/
theorem List_info_counterexample :
    paginationList (conditionList (Select columnsSelect table) noFilter) 65536 ⟨1, 65536⟩
      = some (((Select columnsSelect table).Limit 65536).Offset 0, ⟨1, 65536⟩) ∧
    (NewUserRepository (storeOf 65536 ⟨[], none⟩)).List
        ⟨noFilter, ⟨1, 65536⟩, ⟨"id", "ASC"⟩⟩
      = some (.ok ⟨[], ⟨1, 0, 65536, 1⟩⟩) ∧ (0 : ℕ) ≠ 65536 := by
  refine ⟨by decide, ?_, by decide⟩
  rfl

/-- C7, amended: for every criteria with a limit that is at least 1 on which
both queries of `List` succeed, the limit `paginationList` leaves is a capacity
the runtime allocates for the slice of the rows, and the rows are scanned
without error, `List` returns a response that has `Page` equal to the page
`paginationList` wrote back, `PageSize` equal to the LIMIT emitted in the
SELECT reduced modulo `2 ^ 16` by the conversion to `uint16` (the emitted LIMIT
itself whenever that is below `2 ^ 16`), and `TotalCount` equal to the value the
COUNT query returned. -/
theorem List_info (r : subscriptionRepository) (params : QueryCriteria)
    (sqlC sqlS : String) (argsC argsS : List Arg) (totalCount : Nat)
    (query : SelectBuilder) (pagination : PaginationParams) (rows : Rows)
    (subs : List Subscription)
    (hc : (conditionList (Select r.columnsSelectCount r.table) params.Filter).ToSql
      = .ok (sqlC, argsC))
    (hq : r.querier.QueryRowScan sqlC argsC = .ok totalCount)
    (hp : paginationList (conditionList (Select r.columnsSelect r.table) params.Filter)
      totalCount params.Pagination = some (query, pagination))
    (hs : (sortList query params.Sorting).ToSql = .ok (sqlS, argsS))
    (hr : r.querier.Queryx sqlS argsS = .ok rows)
    (hcap : pagination.Limit ≤ r.maxCap)
    (hscan : scanRows rows.scans [] = .ok subs) (herr : rows.err = none)
    (hlimit : 1 ≤ params.Pagination.Limit) :
    ∃ resp lim, r.List params = some (.ok resp) ∧
      (sortList query params.Sorting).limit = some lim ∧
      resp.Info.Page = pagination.Page ∧
      resp.Info.PageSize = lim % 2 ^ 16 ∧
      (lim < 2 ^ 16 → resp.Info.PageSize = lim) ∧
      resp.Info.TotalCount = totalCount := by
  obtain ⟨totalPages, ht⟩ :=
    totalPagesOf_of_ne_zero totalCount params.Pagination.Limit (by omega)
  refine ⟨_, pagination.Limit, List_ok r params hc hq hp hs hr hcap hscan herr ht, ?_, rfl,
    rfl, fun h => ?_, rfl⟩
  · rw [sortList_limit, paginationList_limit hp]
  · exact Nat.mod_eq_of_lt h

/-- C7, amended, on the success case of the test suite: 3 rows, page 2 with
limit 2; LIMIT 1 is emitted and the response reports page 2 of size 1 over 3
rows. -/
theorem List_info_witness :
    ∃ resp lim, repoTest.List criteriaTest = some (.ok resp) ∧
      (sortList (((Select columnsSelect table).Limit 1).Offset 2) ⟨"", ""⟩).limit
        = some lim ∧
      resp.Info.Page = 2 ∧ resp.Info.PageSize = lim % 2 ^ 16 ∧
      (lim < 2 ^ 16 → resp.Info.PageSize = lim) ∧ resp.Info.TotalCount = 3 :=
  List_info repoTest criteriaTest "SELECT COUNT(*) FROM subscription"
    ("SELECT id, service_name, user_id, price, start_date, end_date FROM subscription " ++
      "LIMIT 1 OFFSET 2")
    [] [] 3 (((Select columnsSelect table).Limit 1).Offset 2) ⟨2, 1⟩ ⟨[.ok subTest], none⟩
    [subTest] rfl rfl (by decide) rfl rfl (by decide) rfl rfl (by decide)

/-! ## The filter predicates -/

/-- The `conditionList` builder appends the present slots of the list path. -/
theorem conditionList_eq_slots (q : SelectBuilder) (params : FilterParams) :
    conditionList q params
      = { q with whereParts := q.whereParts ++ (listSlots params).reduceOption } := by
  obtain ⟨name, user, ⟨dateFrom, dateTo⟩⟩ := params
  cases dateFrom <;> cases dateTo <;> by_cases h1 : name = "" <;>
    by_cases h2 : user = uuidNil <;>
    simp [conditionList, listSlots, SelectBuilder.Where, List.reduceOption, h1, h2]

/-- The `conditionCost` builder appends the cost form of the present slots of
the list path. -/
theorem conditionCost_eq_slots (q : SelectBuilder) (params : FilterParams) :
    conditionCost q params
      = { q with whereParts :=
            q.whereParts ++ (listSlots params).reduceOption.map Sqlizer.costForm } := by
  obtain ⟨name, user, ⟨dateFrom, dateTo⟩⟩ := params
  cases dateFrom <;> cases dateTo <;> by_cases h1 : name = "" <;>
    by_cases h2 : user = uuidNil <;>
    simp [conditionCost, listSlots, SelectBuilder.Where, List.reduceOption,
      Sqlizer.costForm, h1, h2]

/-- The values of the present slots are the present filter values. -/
theorem listSlots_values (params : FilterParams) :
    (listSlots params).reduceOption.map Sqlizer.value = (filterValues params).reduceOption := by
  obtain ⟨name, user, ⟨dateFrom, dateTo⟩⟩ := params
  cases dateFrom <;> cases dateTo <;> by_cases h1 : name = "" <;>
    by_cases h2 : user = uuidNil <;>
    simp [listSlots, filterValues, List.reduceOption, Sqlizer.value, h1, h2]

/-- The cost form of a predicate keeps its column and its value. -/
theorem costForm_column_value (pred : Sqlizer) :
    pred.costForm.column = pred.column ∧ pred.costForm.value = pred.value := by
  cases pred with
  | Like column value =>
    by_cases h : column = "service_name" <;>
      simp [Sqlizer.costForm, Sqlizer.column, Sqlizer.value, h]
  | Eq column value => simp [Sqlizer.costForm]
  | GtOrEq column value => simp [Sqlizer.costForm]
  | LtOrEq column value => simp [Sqlizer.costForm]

/-- The arguments a statement with result columns binds are what its WHERE
predicates bind, in order. -/
theorem ToSql_args (b : SelectBuilder) (h : b.columns ≠ []) :
    ∃ sql, b.ToSql = .ok (sql, b.whereParts.map Sqlizer.bound) := by
  simp [SelectBuilder.ToSql, h]

/-- The arguments of a statement that builds are what its WHERE predicates
bind, in order. -/
theorem ToSql_ok_args (b : SelectBuilder) (sql : String) (args : List Arg)
    (h : b.ToSql = .ok (sql, args)) : args = b.whereParts.map Sqlizer.bound := by
  by_cases hcol : b.columns = []
  · simp [SelectBuilder.ToSql, hcol] at h
  · obtain ⟨sql', h'⟩ := ToSql_args b hcol
    rw [h'] at h
    cases h
    rfl

/-- What the present slots bind are the present bound values of the filter. -/
theorem listSlots_bound (params : FilterParams) :
    (listSlots params).reduceOption.map Sqlizer.bound = (boundValues params).reduceOption := by
  obtain ⟨name, user, ⟨dateFrom, dateTo⟩⟩ := params
  cases dateFrom <;> cases dateTo <;> by_cases h1 : name = "" <;>
    by_cases h2 : user = uuidNil <;>
    simp [listSlots, boundValues, List.reduceOption, Sqlizer.bound, driverValue, h1, h2]

/-- The cost form of the present slots binds what the slots bind. -/
theorem listSlots_costForm_bound (params : FilterParams) :
    ((listSlots params).reduceOption.map Sqlizer.costForm).map Sqlizer.bound
      = (listSlots params).reduceOption.map Sqlizer.bound := by
  obtain ⟨name, user, ⟨dateFrom, dateTo⟩⟩ := params
  cases dateFrom <;> cases dateTo <;> by_cases h1 : name = "" <;>
    by_cases h2 : user = uuidNil <;>
    simp [listSlots, List.reduceOption, Sqlizer.costForm, Sqlizer.bound, driverValue, h1, h2]

/-- C8 as stated fails: with only the owner id
`60601fee-2bf1-4721-ae6f-7636e79a0cba` set, the statement binds the text of
the id, which the predicate makes of it through `driver.Valuer`, not the
`uuid.UUID` of the filter. -/
theorem conditionList_predicates_counterexample :
    (conditionList testQuery ⟨"", userIdTest, ⟨none, none⟩⟩).ToSql
      = .ok ("SELECT * FROM test WHERE user_id = $1",
          [.str "60601fee-2bf1-4721-ae6f-7636e79a0cba"]) ∧
    [Arg.str "60601fee-2bf1-4721-ae6f-7636e79a0cba"] ≠ [Arg.uuid userIdTest] :=
  ⟨rfl, by decide⟩

/-- C8, amended: for every query and every filter, `conditionList` appends to
the WHERE parts exactly the present ones of the four predicates, in the fixed
order service_name LIKE (present iff the name is not empty), user_id = (present
iff the id is not the all-zero UUID), start_date >= From and start_date <= To
(present iff the date is not nil), and changes nothing else; the values the
appended predicates hold are the filter values in that order; the arguments
the statement binds for them are, in that order, the service name, the text of
the owner id as its `String` method gives it, and the two date pointers, after
the arguments of the predicates the query had; and the empty filter leaves the
query as it is, so that no WHERE clause is rendered. -/
theorem conditionList_predicates (q : SelectBuilder) (params : FilterParams) :
    conditionList q params
      = { q with whereParts := q.whereParts ++ (listSlots params).reduceOption } ∧
    (conditionList q params).whereParts.map Sqlizer.value
      = q.whereParts.map Sqlizer.value ++ (filterValues params).reduceOption ∧
    (∀ sql args, (conditionList q params).ToSql = .ok (sql, args) →
      args = q.whereParts.map Sqlizer.bound ++ (boundValues params).reduceOption) ∧
    (q.columns ≠ [] →
      ∃ sql, (conditionList q params).ToSql
        = .ok (sql, q.whereParts.map Sqlizer.bound ++ (boundValues params).reduceOption)) ∧
    conditionList q noFilter = q ∧
    (conditionList testQuery noFilter).ToSql = .ok ("SELECT * FROM test", []) := by
  have hb : (conditionList q params).whereParts.map Sqlizer.bound
      = q.whereParts.map Sqlizer.bound ++ (boundValues params).reduceOption := by
    rw [conditionList_eq_slots, ← listSlots_bound]
    simp
  refine ⟨conditionList_eq_slots q params, ?_, ?_, ?_, ?_, rfl⟩
  · rw [conditionList_eq_slots, ← listSlots_values]
    simp
  · intro sql args h
    rw [ToSql_ok_args _ sql args h, hb]
  · intro hcol
    have hcol' : (conditionList q params).columns ≠ [] := by
      rw [conditionList_eq_slots]
      exact hcol
    obtain ⟨sql, h⟩ := ToSql_args (conditionList q params) hcol'
    exact ⟨sql, by rw [h, hb]⟩
  · rw [conditionList_eq_slots]
    simp [listSlots, noFilter, List.reduceOption]

/-- C8, amended, on the filter of the `conditionList` test, all four fields
set: the statement binds the name, the text of the owner id and the two
dates. -/
theorem conditionList_predicates_witness :
    testQuery.columns ≠ [] ∧
    (∃ sql, (conditionList testQuery ⟨"TestService", userIdTest, ⟨some ⟨1⟩, some ⟨2⟩⟩⟩).ToSql
      = .ok (sql, testQuery.whereParts.map Sqlizer.bound ++
          (boundValues ⟨"TestService", userIdTest, ⟨some ⟨1⟩, some ⟨2⟩⟩⟩).reduceOption)) ∧
    testQuery.whereParts.map Sqlizer.bound ++
        (boundValues ⟨"TestService", userIdTest, ⟨some ⟨1⟩, some ⟨2⟩⟩⟩).reduceOption
      = [.str "TestService", .str "60601fee-2bf1-4721-ae6f-7636e79a0cba", .timePtr ⟨1⟩,
          .timePtr ⟨2⟩] :=
  ⟨by decide,
    (conditionList_predicates testQuery
      ⟨"TestService", userIdTest, ⟨some ⟨1⟩, some ⟨2⟩⟩⟩).2.2.2.1 (by decide),
    by decide⟩

/-- The statement of the `conditionList` test: all four fields set. -/
theorem conditionList_test_sql :
    (conditionList testQuery ⟨"TestService", 7, ⟨some ⟨1⟩, some ⟨2⟩⟩⟩).ToSql
      = .ok ("SELECT * FROM test WHERE service_name LIKE $1 AND user_id = $2 AND " ++
          "start_date >= $3 AND start_date <= $4",
          [.str "TestService", .str "00000000-0000-0000-0000-000000000007", .timePtr ⟨1⟩,
            .timePtr ⟨2⟩]) :=
  rfl

/-- C9: for every query and every filter, `conditionCost` leaves what
`conditionList` leaves, except that each predicate appended to the WHERE parts
is in its cost form: the LIKE on the service name is an equality on the same
column with the same value, every other predicate is the same; the two hold the
same values in the same order; on a filter with the empty service name the two
give the same query; and the statements of the two bind the same arguments in
the same order. -/
theorem conditionCost_eq_conditionList (q : SelectBuilder) (params : FilterParams) :
    conditionCost q params
      = { conditionList q params with
          whereParts := q.whereParts ++
            ((conditionList q params).whereParts.drop q.whereParts.length).map
              Sqlizer.costForm } ∧
    (conditionList q params).whereParts.take q.whereParts.length = q.whereParts ∧
    (conditionCost q params).whereParts.map Sqlizer.value
      = (conditionList q params).whereParts.map Sqlizer.value ∧
    (conditionCost q params).whereParts.map Sqlizer.column
      = (conditionList q params).whereParts.map Sqlizer.column ∧
    conditionCost q { params with ServiceName := "" }
      = conditionList q { params with ServiceName := "" } ∧
    (conditionCost q params).whereParts.map Sqlizer.bound
      = (conditionList q params).whereParts.map Sqlizer.bound := by
  have hval : ∀ l : List Sqlizer, (l.map Sqlizer.costForm).map Sqlizer.value
      = l.map Sqlizer.value := by
    intro l
    simp [List.map_map, Function.comp_def, costForm_column_value]
  have hcol : ∀ l : List Sqlizer, (l.map Sqlizer.costForm).map Sqlizer.column
      = l.map Sqlizer.column := by
    intro l
    simp [List.map_map, Function.comp_def, costForm_column_value]
  refine ⟨?_, ?_, ?_, ?_, ?_, ?_⟩
  · rw [conditionCost_eq_slots, conditionList_eq_slots]
    simp
  · rw [conditionList_eq_slots]
    simp
  · rw [conditionCost_eq_slots, conditionList_eq_slots]
    simp only [List.map_append, hval]
  · rw [conditionCost_eq_slots, conditionList_eq_slots]
    simp only [List.map_append, hcol]
  · obtain ⟨name, user, ⟨dateFrom, dateTo⟩⟩ := params
    cases dateFrom <;> cases dateTo <;> by_cases h2 : user = uuidNil <;>
      simp [conditionCost, conditionList, h2]
  · rw [conditionCost_eq_slots, conditionList_eq_slots]
    simp only [List.map_append, listSlots_costForm_bound]

/-- The statements of the `conditionCost` test: the fields set one after the
other. -/
theorem conditionCost_test_sql :
    (conditionCost testQuery noFilter).ToSql = .ok ("SELECT * FROM test", []) ∧
    (conditionCost testQuery ⟨"TestService", 0, ⟨none, none⟩⟩).ToSql
      = .ok ("SELECT * FROM test WHERE service_name = $1", [.str "TestService"]) ∧
    (conditionCost testQuery ⟨"TestService", 7, ⟨some ⟨1⟩, some ⟨2⟩⟩⟩).ToSql
      = .ok ("SELECT * FROM test WHERE service_name = $1 AND user_id = $2 AND " ++
          "start_date >= $3 AND start_date <= $4",
          [.str "TestService", .str "00000000-0000-0000-0000-000000000007", .timePtr ⟨1⟩,
            .timePtr ⟨2⟩]) :=
  ⟨rfl, rfl, rfl⟩

/-! ## The LIKE predicate of the list path -/

/-- A character a LIKE pattern does not read specially is a literal token. -/
theorem likeTokens_cons_plain (c : Char) (rest : List Char)
    (hc : c ≠ '%' ∧ c ≠ '_' ∧ c ≠ '\\') :
    likeTokens (c :: rest) = (likeTokens rest).map fun ts => LikeToken.lit c :: ts := by
  rw [likeTokens.eq_def]
  simp [hc.1, hc.2.1, hc.2.2]

/-- A percent sign is the any-run token. -/
theorem likeTokens_cons_percent (rest : List Char) :
    likeTokens ('%' :: rest) = (likeTokens rest).map fun ts => LikeToken.anySeq :: ts := by
  rw [likeTokens.eq_def]
  simp

/-- A run of characters none of which a LIKE pattern reads specially. -/
theorem likeTokens_plain_append (l rest : List Char)
    (hw : ∀ c ∈ l, c ≠ '%' ∧ c ≠ '_' ∧ c ≠ '\\') :
    likeTokens (l ++ rest) = (likeTokens rest).map fun ts => l.map LikeToken.lit ++ ts := by
  induction l with
  | nil => simp
  | cons c l ih =>
    have hc := hw c (List.mem_cons_self c l)
    have ih := ih fun d hd => hw d (List.mem_cons_of_mem c hd)
    rw [List.cons_append, likeTokens_cons_plain c _ hc, ih]
    simp [Option.map_map, Function.comp_def]

/-- A pattern starting with literals matches the values that start with those
characters and whose rest matches the rest of the pattern. -/
theorem likeMatch_lits_append (l : List Char) (ts : List LikeToken) (v : List Char) :
    likeMatch (l.map LikeToken.lit ++ ts) v = true
      ↔ ∃ w, v = l ++ w ∧ likeMatch ts w = true := by
  induction l generalizing v with
  | nil => simp
  | cons c l ih =>
    cases v with
    | nil => simp [likeMatch]
    | cons x v =>
      simp only [List.map_cons, List.cons_append, likeMatch, Bool.and_eq_true,
        decide_eq_true_eq, List.append_eq, ih, List.cons.injEq]
      constructor
      · rintro ⟨rfl, w, rfl, hw⟩
        exact ⟨w, ⟨rfl, rfl⟩, hw⟩
      · rintro ⟨w, ⟨rfl, rfl⟩, hw⟩
        exact ⟨rfl, w, rfl, hw⟩

/-- A pattern starting with the any-run token matches the values one of whose
suffixes matches the rest of the pattern. -/
theorem likeMatch_anySeq (ts : List LikeToken) (v : List Char) :
    likeMatch (.anySeq :: ts) v = true ↔ ∃ t, t <:+ v ∧ likeMatch ts t = true := by
  simp [likeMatch, List.any_eq_true]

/-- The any-run token alone matches every value. -/
theorem likeMatch_anySeq_nil (v : List Char) : likeMatch [.anySeq] v = true := by
  rw [likeMatch_anySeq]
  exact ⟨[], List.nil_suffix, rfl⟩

/-- A pattern without `%`, `_` and backslash matches its own text only. -/
theorem sqlLike_plain (s v : String) (hw : ∀ c ∈ s.toList, c ≠ '%' ∧ c ≠ '_' ∧ c ≠ '\\') :
    sqlLike s v = true ↔ v = s := by
  have h := likeTokens_plain_append s.toList [] hw
  simp only [List.append_nil] at h
  have h0 : likeTokens [] = some [] := by rw [likeTokens.eq_def]
  rw [h0] at h
  simp only [sqlLike, h, Option.map_some', List.append_nil]
  have h2 := likeMatch_lits_append s.toList [] v.toList
  simp only [List.append_nil] at h2
  rw [h2]
  constructor
  · rintro ⟨w, hv, hnil⟩
    have : w = [] := by simpa [likeMatch] using hnil
    subst this
    exact String.ext (by simpa using hv)
  · rintro rfl
    exact ⟨[], by simp, rfl⟩

/-- A text without `%`, `_` and backslash, put between two percent signs,
matches the values that contain it. -/
theorem sqlLike_contains (s v : String) (hw : ∀ c ∈ s.toList, c ≠ '%' ∧ c ≠ '_' ∧ c ≠ '\\') :
    sqlLike ("%" ++ s ++ "%") v = true ↔ s.toList <:+: v.toList := by
  have hl : ("%" ++ s ++ "%").toList = '%' :: (s.toList ++ ['%']) := by
    simp [String.toList]
  have h1 : likeTokens ['%'] = some [.anySeq] := by decide
  have h := likeTokens_plain_append s.toList ['%'] hw
  rw [h1] at h
  simp only [sqlLike, hl, likeTokens_cons_percent, h, Option.map_some']
  rw [likeMatch_anySeq, List.infix_iff_prefix_suffix]
  constructor
  · rintro ⟨t, ht, hm⟩
    obtain ⟨w, rfl, -⟩ := (likeMatch_lits_append _ _ _).1 hm
    exact ⟨_, ⟨w, rfl⟩, ht⟩
  · rintro ⟨t, ⟨w, rfl⟩, ht⟩
    exact ⟨_, ht, (likeMatch_lits_append _ _ _).2 ⟨w, rfl, likeMatch_anySeq_nil w⟩⟩

/-- C10 as stated fails: with only the service name "Test" set, `conditionList`
appends the one predicate service_name LIKE "Test"; the row named
"TestService" contains "Test" and does not satisfy it. -/
theorem conditionList_serviceName_counterexample :
    conditionList testQuery ⟨"Test", uuidNil, ⟨none, none⟩⟩
      = testQuery.Where (.Like "service_name" (.str "Test")) ∧
    "Test".toList <:+: rowTestService.ServiceName.toList ∧
    (Sqlizer.Like "service_name" (.str "Test")).holds rowTestService = false := by
  decide

/-- C10, amended: for every filter with only a non-empty service name `s` set,
whatever characters `s` has, `conditionList` appends exactly one predicate,
service_name LIKE `s`, which binds `s` as given and which a row satisfies
exactly when its service name matches the pattern `s` under SQL LIKE; when `s`
has no `%`, no `_` and no backslash, a row satisfies that predicate exactly
when its service name equals `s`, and the rows whose service name contains `s`
are the ones that satisfy the predicate for the pattern `%s%`, which the
caller has to pass. -/
theorem conditionList_serviceName (q : SelectBuilder) (s : String) (row : Subscription)
    (hs : s ≠ "") :
    conditionList q ⟨s, uuidNil, ⟨none, none⟩⟩
      = { q with whereParts := q.whereParts ++ [.Like "service_name" (.str s)] } ∧
    (Sqlizer.Like "service_name" (.str s)).bound = .str s ∧
    (Sqlizer.Like "service_name" (.str s)).holds row = sqlLike s row.ServiceName ∧
    ((∀ c ∈ s.toList, c ≠ '%' ∧ c ≠ '_' ∧ c ≠ '\\') →
      ((Sqlizer.Like "service_name" (.str s)).holds row = true ↔ row.ServiceName = s) ∧
      ((Sqlizer.Like "service_name" (.str ("%" ++ s ++ "%"))).holds row = true
        ↔ s.toList <:+: row.ServiceName.toList)) := by
  refine ⟨?_, rfl, ?_, fun hw => ⟨?_, ?_⟩⟩
  · simp [conditionList, SelectBuilder.Where, hs]
  · simp [Sqlizer.holds, Subscription.column]
  · simp only [Sqlizer.holds, Subscription.column]
    simpa using sqlLike_plain s row.ServiceName hw
  · simp only [Sqlizer.holds, Subscription.column]
    simpa using sqlLike_contains s row.ServiceName hw

/-- C10, amended, on the row named "TestService": the name "Test" gives the
predicate service_name LIKE "Test", which the row satisfies exactly when it is
named "Test", while it contains "Test"; and the name "%Test%", wildcards
included, is passed on as the pattern as it is. -/
theorem conditionList_serviceName_witness :
    (∀ c ∈ "Test".toList, c ≠ '%' ∧ c ≠ '_' ∧ c ≠ '\\') ∧
    conditionList testQuery ⟨"Test", uuidNil, ⟨none, none⟩⟩
      = { testQuery with
          whereParts := testQuery.whereParts ++ [.Like "service_name" (.str "Test")] } ∧
    ((Sqlizer.Like "service_name" (.str "Test")).holds rowTestService = true
      ↔ rowTestService.ServiceName = "Test") ∧
    ((Sqlizer.Like "service_name" (.str ("%" ++ "Test" ++ "%"))).holds rowTestService = true
      ↔ "Test".toList <:+: rowTestService.ServiceName.toList) ∧
    conditionList testQuery ⟨"%Test%", uuidNil, ⟨none, none⟩⟩
      = { testQuery with
          whereParts := testQuery.whereParts ++ [.Like "service_name" (.str "%Test%")] } ∧
    (Sqlizer.Like "service_name" (.str "%Test%")).holds rowTestService = true :=
  have h := conditionList_serviceName testQuery "Test" rowTestService (by decide)
  ⟨by decide, h.1, (h.2.2.2 (by decide)).1, (h.2.2.2 (by decide)).2,
    (conditionList_serviceName testQuery "%Test%" rowTestService (by decide)).1, by decide⟩

/-! ## The ordering clause -/

/-- C11: for every query and every sort whose `SortBy` is the empty string,
whatever `SortOrder` holds, `sortList` returns the query unchanged; a query
without ORDER BY terms is then rendered without an ORDER BY clause, as the
query of the test suite is. -/
theorem sortList_empty (q : SelectBuilder) (sortOrder : String) :
    sortList q ⟨"", sortOrder⟩ = q ∧
    (sortList q ⟨"", sortOrder⟩).orderByParts = q.orderByParts ∧
    (sortList testQuery ⟨"", sortOrder⟩).ToSql = .ok ("SELECT * FROM test", []) :=
  ⟨rfl, rfl, rfl⟩

/-- C12: for every query and every sort whose `SortBy` is not empty,
`sortList` appends to the ORDER BY terms the single term made of `SortBy`, one
space and `SortOrder`, and changes nothing else in the query. -/
theorem sortList_nonempty (q : SelectBuilder) (params : SortParams)
    (h : params.SortBy ≠ "") :
    sortList q params
      = { q with orderByParts := q.orderByParts ++ [params.SortBy ++ " " ++ params.SortOrder] } := by
  simp [sortList, SelectBuilder.OrderBy, h]

/-- C12 on the sort of the test suite: by id, descending, the statement is
`SELECT * FROM test ORDER BY id DESC`. -/
theorem sortList_nonempty_witness :
    "id" ≠ "" ∧
    sortList testQuery ⟨"id", "DESC"⟩
      = { testQuery with orderByParts := testQuery.orderByParts ++ ["id" ++ " " ++ "DESC"] } ∧
    (sortList testQuery ⟨"id", "DESC"⟩).ToSql
      = .ok ("SELECT * FROM test ORDER BY id DESC", []) :=
  ⟨by decide, sortList_nonempty testQuery ⟨"id", "DESC"⟩ (by decide), rfl⟩

/-! ## Division by zero -/

/-- The `paginationList` builder returns on every input. -/
theorem paginationList_total (q : SelectBuilder) (totalCount : Nat)
    (params : PaginationParams) :
    ∃ res, paginationList q totalCount params = some res := by
  obtain ⟨page, limit⟩ := params
  by_cases hc : totalCount < umul page limit
  · exact ⟨_, paginationList_rewrite q totalCount page limit hc⟩
  · exact ⟨_, paginationList_keep q totalCount page limit hc⟩

/-- With a limit of zero the comparison of `paginationList` fails: the
requested window, LIMIT 0 OFFSET 0, is emitted and the params are left alone. -/
theorem paginationList_of_zero (q : SelectBuilder) (totalCount page : Nat) :
    paginationList q totalCount ⟨page, 0⟩ = some ((q.Limit 0).Offset 0, ⟨page, 0⟩) := by
  have hkeep : ¬ totalCount < umul page 0 := by simp [umul]
  rw [paginationList_keep q totalCount page 0 hkeep]
  simp [umul]

/-- The limit `paginationList` leaves is at most the requested one. -/
theorem paginationList_limit_le {q query : SelectBuilder} {totalCount : Nat}
    {params pagination : PaginationParams}
    (h : paginationList q totalCount params = some (query, pagination)) :
    pagination.Limit ≤ params.Limit := by
  obtain ⟨page, limit⟩ := params
  by_cases hc : totalCount < umul page limit
  · rw [paginationList_rewrite q totalCount page limit hc] at h
    cases h
    exact le_of_lt (Nat.mod_lt _ (Nat.pos_of_ne_zero (limit_ne_zero_of_lt hc)))
  · rw [paginationList_keep q totalCount page limit hc] at h
    cases h
    exact le_rfl

/-- The `List` method panics when both statements build, both queries succeed,
and the limit `paginationList` leaves is above the largest capacity of a
slice. -/
theorem List_makeslice_panic (r : subscriptionRepository) (params : QueryCriteria)
    {sqlC sqlS : String} {argsC argsS : List Arg} {totalCount : Nat}
    {query : SelectBuilder} {pagination : PaginationParams} {rows : Rows}
    (hc : (conditionList (Select r.columnsSelectCount r.table) params.Filter).ToSql
      = .ok (sqlC, argsC))
    (hq : r.querier.QueryRowScan sqlC argsC = .ok totalCount)
    (hp : paginationList (conditionList (Select r.columnsSelect r.table) params.Filter)
      totalCount params.Pagination = some (query, pagination))
    (hs : (sortList query params.Sorting).ToSql = .ok (sqlS, argsS))
    (hr : r.querier.Queryx sqlS argsS = .ok rows)
    (hcap : r.maxCap < pagination.Limit) :
    r.List params = none := by
  simp only [subscriptionRepository.List, hc, hq, hp, hs, hr, makeslice_of_lt hcap]

/-- On a limit that is not zero, the `List` method panics only in the making of
the slice of the rows: both statements have built, both queries have succeeded,
and the limit `paginationList` leaves is above the largest capacity. -/
theorem List_none (r : subscriptionRepository) (params : QueryCriteria)
    (hlimit : params.Pagination.Limit ≠ 0) (h : r.List params = none) :
    ∃ sqlC argsC totalCount query pagination sqlS argsS rows,
      (conditionList (Select r.columnsSelectCount r.table) params.Filter).ToSql
        = .ok (sqlC, argsC) ∧
      r.querier.QueryRowScan sqlC argsC = .ok totalCount ∧
      paginationList (conditionList (Select r.columnsSelect r.table) params.Filter)
        totalCount params.Pagination = some (query, pagination) ∧
      (sortList query params.Sorting).ToSql = .ok (sqlS, argsS) ∧
      r.querier.Queryx sqlS argsS = .ok rows ∧
      r.maxCap < pagination.Limit := by
  cases hc : (conditionList (Select r.columnsSelectCount r.table) params.Filter).ToSql with
  | error e => simp [subscriptionRepository.List, hc] at h
  | ok p =>
    obtain ⟨sqlC, argsC⟩ := p
    cases hq : r.querier.QueryRowScan sqlC argsC with
    | error e => simp [subscriptionRepository.List, hc, hq] at h
    | ok totalCount =>
      obtain ⟨⟨query, pagination⟩, hp⟩ := paginationList_total
        (conditionList (Select r.columnsSelect r.table) params.Filter) totalCount
        params.Pagination
      cases hs : (sortList query params.Sorting).ToSql with
      | error e => simp [subscriptionRepository.List, hc, hq, hp, hs] at h
      | ok p =>
        obtain ⟨sqlS, argsS⟩ := p
        cases hr : r.querier.Queryx sqlS argsS with
        | error e => simp [subscriptionRepository.List, hc, hq, hp, hs, hr] at h
        | ok rows =>
          by_cases hcap : r.maxCap < pagination.Limit
          · exact ⟨sqlC, argsC, totalCount, query, pagination, sqlS, argsS, rows, rfl, hq, hp,
              hs, hr, hcap⟩
          · exfalso
            obtain ⟨tp, htp⟩ :=
              totalPagesOf_of_ne_zero totalCount params.Pagination.Limit hlimit
            simp only [subscriptionRepository.List, hc, hq, hp, hs, hr,
              makeslice_of_le (Nat.not_lt.1 hcap), htp] at h
            cases hscan : scanRows rows.scans [] with
            | error e => simp [hscan] at h
            | ok subs =>
              cases herr : rows.err with
              | some e => simp [hscan, herr] at h
              | none => simp [hscan, herr] at h

/-- C14 as stated fails for `List`: with limit `2 ^ 62` and page 1 over
`2 ^ 62` rows, `paginationList` keeps the limit `2 ^ 62`, both queries succeed,
and the making of the slice of the rows with that capacity panics, so `List`
does not return; no division is reached. -/
theorem no_division_by_zero_counterexample :
    (1 ≤ 2 ^ 62 ∧ 2 ^ 62 < 2 ^ 64) ∧
    paginationList (conditionList (Select columnsSelect table) noFilter) (2 ^ 62)
        ⟨1, 2 ^ 62⟩
      = some (((Select columnsSelect table).Limit (2 ^ 62)).Offset 0, ⟨1, 2 ^ 62⟩) ∧
    makeslice (maxAlloc / sizeofSubscription) (2 ^ 62) = none ∧
    (NewUserRepository (storeOf (2 ^ 62) ⟨[], none⟩)).List
        ⟨noFilter, ⟨1, 2 ^ 62⟩, ⟨"id", "ASC"⟩⟩ = none :=
  ⟨by decide, by decide, by decide, rfl⟩

/-- C14, amended: for every page, every total count and every limit that is at
least 1, `paginationList` returns on every query (its modulo and its division
do not divide by zero) and the total-pages division of `List` returns; `List`
itself panics exactly when both statements have built, both queries have
succeeded and the limit `paginationList` leaves is above the largest capacity
with which the runtime makes the slice of the rows, which is no division; so
`List` does not panic when the requested limit is at most that capacity,
whatever the store answers. -/
theorem no_division_by_zero (r : subscriptionRepository) (params : QueryCriteria)
    (q : SelectBuilder) (totalCount : Nat) (hlimit : 1 ≤ params.Pagination.Limit) :
    (∃ res, paginationList q totalCount params.Pagination = some res) ∧
    (∃ totalPages, totalPagesOf totalCount params.Pagination.Limit = some totalPages) ∧
    (r.List params = none ↔
      ∃ sqlC argsC total query pagination sqlS argsS rows,
        (conditionList (Select r.columnsSelectCount r.table) params.Filter).ToSql
          = .ok (sqlC, argsC) ∧
        r.querier.QueryRowScan sqlC argsC = .ok total ∧
        paginationList (conditionList (Select r.columnsSelect r.table) params.Filter)
          total params.Pagination = some (query, pagination) ∧
        (sortList query params.Sorting).ToSql = .ok (sqlS, argsS) ∧
        r.querier.Queryx sqlS argsS = .ok rows ∧
        r.maxCap < pagination.Limit) ∧
    (params.Pagination.Limit ≤ r.maxCap → r.List params ≠ none) := by
  refine ⟨paginationList_total q totalCount params.Pagination,
    totalPagesOf_of_ne_zero totalCount params.Pagination.Limit (by omega), ⟨?_, ?_⟩, ?_⟩
  · exact List_none r params (by omega)
  · rintro ⟨sqlC, argsC, total, query, pagination, sqlS, argsS, rows, hc, hq, hp, hs, hr,
      hcap⟩
    exact List_makeslice_panic r params hc hq hp hs hr hcap
  · intro hcap h
    obtain ⟨sqlC, argsC, total, query, pagination, sqlS, argsS, rows, -, -, hp, -, -, hlt⟩ :=
      List_none r params (by omega) h
    have := paginationList_limit_le hp
    omega

/-- C14, amended, on the listing success test: page 2 with limit 2 over 3
rows, a limit the runtime allocates. -/
theorem no_division_by_zero_witness :
    (1 ≤ criteriaTest.Pagination.Limit ∧ criteriaTest.Pagination.Limit ≤ repoTest.maxCap) ∧
    (∃ res, paginationList testQuery 3 criteriaTest.Pagination = some res) ∧
    (∃ totalPages, totalPagesOf 3 criteriaTest.Pagination.Limit = some totalPages) ∧
    repoTest.List criteriaTest ≠ none :=
  have h := no_division_by_zero repoTest criteriaTest testQuery 3 (by decide)
  ⟨by decide, h.1, h.2.1, h.2.2.2 (by decide)⟩

/-- C15 as stated fails: with limit 0, page 3 and 5 rows, `paginationList`
returns the clause LIMIT 0 OFFSET 0 and leaves the params as they are; no
division or modulo is reached. -/
theorem paginationList_zero_limit_counterexample :
    paginationList testQuery 5 ⟨3, 0⟩ = some ((testQuery.Limit 0).Offset 0, ⟨3, 0⟩) ∧
    paginationList testQuery 5 ⟨3, 0⟩ ≠ none := by
  decide

/-- C15, amended: for every page and total count, `paginationList` with limit 0
reaches no division: the total is not below the `uint64` product `page * 0 = 0`,
so it returns the clause LIMIT 0 OFFSET 0 with the params unchanged. The
division by zero of a zero limit is the total-pages division of `List`, which
panics once both queries have succeeded. -/
theorem paginationList_zero_limit (r : subscriptionRepository) (params : QueryCriteria)
    (q : SelectBuilder) (sqlC sqlS : String) (argsC argsS : List Arg) (totalCount : Nat)
    (rows : Rows) (subs : List Subscription)
    (hzero : params.Pagination.Limit = 0)
    (hc : (conditionList (Select r.columnsSelectCount r.table) params.Filter).ToSql
      = .ok (sqlC, argsC))
    (hq : r.querier.QueryRowScan sqlC argsC = .ok totalCount)
    (hs : (sortList (((conditionList (Select r.columnsSelect r.table) params.Filter).Limit
      0).Offset 0) params.Sorting).ToSql = .ok (sqlS, argsS))
    (hr : r.querier.Queryx sqlS argsS = .ok rows)
    (hscan : scanRows rows.scans [] = .ok subs) (herr : rows.err = none) :
    paginationList q totalCount params.Pagination
      = some ((q.Limit 0).Offset 0, params.Pagination) ∧
    totalPagesOf totalCount params.Pagination.Limit = none ∧
    r.List params = none := by
  obtain ⟨filter, ⟨page, limit⟩, sorting⟩ := params
  simp only at hzero
  subst hzero
  refine ⟨paginationList_of_zero q totalCount page, by simp [totalPagesOf, udiv], ?_⟩
  have hp := paginationList_of_zero
    (conditionList (Select r.columnsSelect r.table) filter) totalCount page
  simp only [subscriptionRepository.List, hc, hq, hp, hs, hr,
    makeslice_of_le (Nat.zero_le r.maxCap), hscan, herr]
  simp [totalPagesOf, udiv]

/-- C15, amended, on the store of the listing success test, asked for page 3
with limit 0. -/
theorem paginationList_zero_limit_witness :
    paginationList testQuery 3 ⟨3, 0⟩ = some ((testQuery.Limit 0).Offset 0, ⟨3, 0⟩) ∧
    totalPagesOf 3 0 = none ∧
    repoTest.List ⟨noFilter, ⟨3, 0⟩, ⟨"", ""⟩⟩ = none :=
  paginationList_zero_limit repoTest ⟨noFilter, ⟨3, 0⟩, ⟨"", ""⟩⟩ testQuery
    "SELECT COUNT(*) FROM subscription"
    ("SELECT id, service_name, user_id, price, start_date, end_date FROM subscription " ++
      "LIMIT 0 OFFSET 0")
    [] [] 3 ⟨[.ok subTest], none⟩ [subTest] rfl rfl rfl rfl rfl rfl rfl

/-! ## The validation boundary of the sort -/

/-- The sort and the pagination of the criteria the conversion returns. -/
theorem convert_sorting_pagination (Parse : String → Option UUID)
    (timeParse : String → String → Option Time) (params : QueryParamList)
    (qc : QueryCriteria)
    (h : SubscriptionQueryParamsToQueryCriteria Parse timeParse params = .ok qc) :
    qc.Sorting = ⟨if params.SortBy = "" then SortTypeID else params.SortBy,
      if params.SortOrder = "" then SortOrderTypeAsc else params.SortOrder⟩ ∧
    qc.Pagination = ⟨if params.Page = 0 then 1 else toUint64 params.Page,
      if params.Limit = 0 then 20 else toUint64 params.Limit⟩ := by
  simp only [SubscriptionQueryParamsToQueryCriteria] at h
  repeat' split at h
  all_goals (cases h <;> simp [*])

/-- A key found in a map of two keys is one of the two. -/
theorem lookup_two (a b val : String)
    (h : (List.lookup val [(a, true), (b, true)]).isSome = true) :
    val = a ∨ val = b := by
  by_cases h1 : val = a
  · exact Or.inl h1
  · by_cases h2 : val = b
    · exact Or.inr h2
    · have e1 : (val == a) = false := by simpa using h1
      have e2 : (val == b) = false := by simpa using h2
      simp [List.lookup, e1, e2] at h

/-- C13 as stated fails: the sort order "asc" passes the `sort_order`
validation, which compares its upper case, and the conversion hands it on as it
is; the `SortOrder` of the criteria is "asc", neither "ASC" nor "DESC", and
`sortList` puts it into the ORDER BY text. -/
theorem sort_validated_counterexample :
    validSort asciiToUpper ⟨"", "asc", "", "", "", "", 0, 0⟩ = true ∧
    SubscriptionQueryParamsToQueryCriteria (fun _ => none) (fun _ _ => none)
        ⟨"", "asc", "", "", "", "", 0, 0⟩
      = .ok ⟨noFilter, ⟨1, 20⟩, ⟨"id", "asc"⟩⟩ ∧
    "asc" ≠ "ASC" ∧ "asc" ≠ "DESC" ∧
    (sortList testQuery ⟨"id", "asc"⟩).ToSql
      = .ok ("SELECT * FROM test ORDER BY id asc", []) :=
  ⟨by decide, rfl, by decide, by decide, rfl⟩

/-- C13, amended: for every `QueryParamList` whose `SortBy` and `SortOrder` pass
the registered `sort_by` and `sort_order` validations (empty values being
allowed by `omitempty`), the sort of the criteria the conversion returns has
`SortBy` equal to "id" or "service_name", and `SortOrder` either "ASC" or the
value of the request unchanged, whose upper case by `strings.ToUpper` is "ASC"
or "DESC"; `sortList` puts exactly these two strings into the one ORDER BY
term it appends. -/
theorem sort_validated (ToUpper : String → String) (Parse : String → Option UUID)
    (timeParse : String → String → Option Time) (params : QueryParamList)
    (qc : QueryCriteria) (q : SelectBuilder)
    (hvalid : validSort ToUpper params = true)
    (hconv : SubscriptionQueryParamsToQueryCriteria Parse timeParse params = .ok qc) :
    (qc.Sorting.SortBy = "id" ∨ qc.Sorting.SortBy = "service_name") ∧
    (qc.Sorting.SortOrder = "ASC" ∨
      (qc.Sorting.SortOrder = params.SortOrder ∧
        (ToUpper params.SortOrder = "ASC" ∨ ToUpper params.SortOrder = "DESC"))) ∧
    sortList q qc.Sorting
      = { q with orderByParts :=
            q.orderByParts ++ [qc.Sorting.SortBy ++ " " ++ qc.Sorting.SortOrder] } := by
  obtain ⟨hsort, -⟩ := convert_sorting_pagination Parse timeParse params qc hconv
  simp only [validSort, omitempty, Bool.and_eq_true, Bool.or_eq_true,
    decide_eq_true_eq] at hvalid
  obtain ⟨hby, horder⟩ := hvalid
  have h1 : qc.Sorting.SortBy = "id" ∨ qc.Sorting.SortBy = "service_name" := by
    rw [hsort]
    rcases hby with hby | hby
    · simp [hby, SortTypeID]
    · rcases lookup_two _ _ _ hby with h | h <;> simp [h, SortTypeID, SortTypeServiceName]
  have h2 : qc.Sorting.SortOrder = "ASC" ∨
      (qc.Sorting.SortOrder = params.SortOrder ∧
        (ToUpper params.SortOrder = "ASC" ∨ ToUpper params.SortOrder = "DESC")) := by
    rw [hsort]
    rcases horder with horder | horder
    · simp [horder, SortOrderTypeAsc]
    · by_cases he : params.SortOrder = ""
      · simp [he, SortOrderTypeAsc]
      · right
        exact ⟨by simp [he], lookup_two _ _ _ horder⟩
  refine ⟨h1, h2, ?_⟩
  have hne : qc.Sorting.SortBy ≠ "" := by
    rcases h1 with h | h <;> rw [h] <;> decide
  simp [sortList, SelectBuilder.OrderBy, hne]

/-- C13, amended, on a request sorted by service name in the order "desc":
the validations pass and the ORDER BY term is `service_name desc`. -/
theorem sort_validated_witness :
    validSort asciiToUpper ⟨"service_name", "desc", "", "", "", "", 0, 0⟩ = true ∧
    ("service_name" = "id" ∨ "service_name" = "service_name") ∧
    ("desc" = "ASC" ∨ ("desc" = "desc" ∧
      (asciiToUpper "desc" = "ASC" ∨ asciiToUpper "desc" = "DESC"))) ∧
    sortList testQuery ⟨"service_name", "desc"⟩
      = { testQuery with
          orderByParts := testQuery.orderByParts ++ ["service_name" ++ " " ++ "desc"] } :=
  ⟨by decide,
    sort_validated asciiToUpper (fun _ => none) (fun _ _ => none)
      ⟨"service_name", "desc", "", "", "", "", 0, 0⟩
      ⟨noFilter, ⟨1, 20⟩, ⟨"service_name", "desc"⟩⟩ testQuery (by decide) rfl⟩

/-! ## The validation of the update fields -/

/-- The validator the table of update fields holds for a key. -/
theorem lookup_updateFields (key : String) :
    (key ∉ updateKeys ∧ SubscriptionUpdateFields.lookup key = none) ∨
    (key = "service_name" ∧ SubscriptionUpdateFields.lookup key = some isString) ∨
    (key = "user_id" ∧ SubscriptionUpdateFields.lookup key = some isUUID) ∨
    (key = "price" ∧ SubscriptionUpdateFields.lookup key = some isUint32) ∨
    ((key = "start_date" ∨ key = "end_date" ∨ key = "updated_at") ∧
      SubscriptionUpdateFields.lookup key = some isTime) := by
  by_cases h1 : key = "service_name"
  · subst h1; right; left; exact ⟨rfl, rfl⟩
  by_cases h2 : key = "user_id"
  · subst h2; right; right; left; exact ⟨rfl, rfl⟩
  by_cases h3 : key = "price"
  · subst h3; right; right; right; left; exact ⟨rfl, rfl⟩
  by_cases h4 : key = "start_date"
  · subst h4; right; right; right; right; exact ⟨Or.inl rfl, rfl⟩
  by_cases h5 : key = "end_date"
  · subst h5; right; right; right; right; exact ⟨Or.inr (Or.inl rfl), rfl⟩
  by_cases h6 : key = "updated_at"
  · subst h6; right; right; right; right; exact ⟨Or.inr (Or.inr rfl), rfl⟩
  left
  refine ⟨by simp [updateKeys, h1, h2, h3, h4, h5, h6], ?_⟩
  have e1 : (key == "service_name") = false := by simpa using h1
  have e2 : (key == "user_id") = false := by simpa using h2
  have e3 : (key == "price") = false := by simpa using h3
  have e4 : (key == "start_date") = false := by simpa using h4
  have e5 : (key == "end_date") = false := by simpa using h5
  have e6 : (key == "updated_at") = false := by simpa using h6
  simp [SubscriptionUpdateFields, List.lookup, e1, e2, e3, e4, e5, e6]

/-- One step of `validateUpdateFields`: an accepted entry is passed over, an
entry with an unknown key or with a value of the wrong type ends the loop with
its error. -/
theorem validate_cons (key : String) (value : Arg) (rest : FieldMap) :
    (fieldAccepted key value = true ∧
      validateUpdateFields ((key, value) :: rest) = validateUpdateFields rest) ∨
    (fieldAccepted key value = false ∧ key ∉ updateKeys ∧
      validateUpdateFields ((key, value) :: rest)
        = some (.foreign ("validateReposiroties.UpdateFields: field not found - " ++ key))) ∨
    (fieldAccepted key value = false ∧ key ∈ updateKeys ∧
      validateUpdateFields ((key, value) :: rest)
        = some (.foreign
            ("validateReposiroties.UpdateFields: invalid value for field " ++ key))) := by
  rcases lookup_updateFields key with ⟨hk, hl⟩ | ⟨hk, hl⟩ | ⟨hk, hl⟩ | ⟨hk, hl⟩ | ⟨hk, hl⟩
  · right; left
    refine ⟨?_, hk, by simp [validateUpdateFields, hl]⟩
    simp only [updateKeys, List.mem_cons, List.mem_singleton, not_or, List.not_mem_nil,
      or_false] at hk
    cases value <;> simp [fieldAccepted, hk]
  · subst hk
    cases value <;> simp [validateUpdateFields, hl, fieldAccepted, isString, updateKeys]
  · subst hk
    cases value <;> simp [validateUpdateFields, hl, fieldAccepted, isUUID, updateKeys]
  · subst hk
    cases value <;> simp [validateUpdateFields, hl, fieldAccepted, isUint32, updateKeys]
  · rcases hk with h | h | h <;> subst h <;> cases value <;>
      simp [validateUpdateFields, hl, fieldAccepted, isTime, updateKeys]

/-- A text contains what stands in its middle. -/
theorem contains_mid (a b c : String) : b.toList <:+: (a ++ b ++ c).toList :=
  ⟨a.toList, c.toList, by simp [String.toList]⟩

/-- The validation returns nil exactly when every entry is accepted. -/
theorem validate_none_iff (fields : FieldMap) :
    validateUpdateFields fields = none ↔ ∀ kv ∈ fields, fieldAccepted kv.1 kv.2 = true := by
  induction fields with
  | nil => simp [validateUpdateFields]
  | cons kv rest ih =>
    obtain ⟨key, value⟩ := kv
    rcases validate_cons key value rest with ⟨ha, he⟩ | ⟨ha, -, he⟩ | ⟨ha, -, he⟩
    · rw [he, ih]; simp [ha]
    · rw [he]; simp [ha]
    · rw [he]; simp [ha]

/-- The error of the validation names an entry that is not accepted. -/
theorem validate_error (fields : FieldMap) (e : GoError)
    (h : validateUpdateFields fields = some e) :
    ∃ kv ∈ fields, fieldAccepted kv.1 kv.2 = false ∧
      ((kv.1 ∉ updateKeys ∧
          e.Error = "validateReposiroties.UpdateFields: field not found - " ++ kv.1 ∧
          "field not found".toList <:+: e.Error.toList) ∨
        (kv.1 ∈ updateKeys ∧
          e.Error = "validateReposiroties.UpdateFields: invalid value for field " ++ kv.1 ∧
          "invalid value for field".toList <:+: e.Error.toList)) := by
  induction fields with
  | nil => simp [validateUpdateFields] at h
  | cons kv rest ih =>
    obtain ⟨key, value⟩ := kv
    rcases validate_cons key value rest with ⟨-, he⟩ | ⟨ha, hk, he⟩ | ⟨ha, hk, he⟩
    · rw [he] at h
      obtain ⟨kv, hmem, hrest⟩ := ih h
      exact ⟨kv, List.mem_cons_of_mem _ hmem, hrest⟩
    · rw [he] at h
      cases h
      refine ⟨(key, value), List.mem_cons_self _ _, ha, Or.inl ⟨hk, rfl, ?_⟩⟩
      have := contains_mid "validateReposiroties.UpdateFields: " "field not found"
        (" - " ++ key)
      simpa [GoError.Error, String.append_assoc] using this
    · rw [he] at h
      cases h
      refine ⟨(key, value), List.mem_cons_self _ _, ha, Or.inr ⟨hk, rfl, ?_⟩⟩
      have := contains_mid "validateReposiroties.UpdateFields: " "invalid value for field"
        (" " ++ key)
      simpa [GoError.Error, String.append_assoc] using this

/-- C16: for every map of fields, `validateUpdateFields` returns nil exactly
when every key is one of the six update fields and its value has the dynamic
type the field requires; an error it returns is the "field not found" text for
an unknown key of the map or the "invalid value for field" text for a key of
the map whose value has the wrong type; whether it returns nil is the same for
every order of the entries; and the empty map is accepted. -/
theorem validateUpdateFields_accepts (fields : FieldMap) :
    (validateUpdateFields fields = none
      ↔ ∀ kv ∈ fields, fieldAccepted kv.1 kv.2 = true) ∧
    (∀ e, validateUpdateFields fields = some e →
      ∃ kv ∈ fields, fieldAccepted kv.1 kv.2 = false ∧
        ((kv.1 ∉ updateKeys ∧
            e.Error = "validateReposiroties.UpdateFields: field not found - " ++ kv.1 ∧
            "field not found".toList <:+: e.Error.toList) ∨
          (kv.1 ∈ updateKeys ∧
            e.Error
              = "validateReposiroties.UpdateFields: invalid value for field " ++ kv.1 ∧
            "invalid value for field".toList <:+: e.Error.toList))) ∧
    (∀ fields' : FieldMap, fields.Perm fields' →
      (validateUpdateFields fields = none ↔ validateUpdateFields fields' = none)) ∧
    (∀ key value, fieldAccepted key value = true → key ∈ updateKeys) ∧
    validateUpdateFields [] = none := by
  refine ⟨validate_none_iff fields, fun e h => validate_error fields e h, ?_, ?_, rfl⟩
  · intro fields' hperm
    rw [validate_none_iff, validate_none_iff]
    exact ⟨fun h kv hmem => h kv (hperm.mem_iff.2 hmem),
      fun h kv hmem => h kv (hperm.mem_iff.1 hmem)⟩
  · intro key value h
    cases value <;> simp [fieldAccepted] at h <;> simp [updateKeys, h]

/-- C16 on the three maps of the test suite: an unknown key, a service name of
type `uint32`, and a service name that is a string. -/
theorem validateUpdateFields_accepts_witness :
    validateUpdateFields [("not_found", .other "int")]
      = some (.foreign "validateReposiroties.UpdateFields: field not found - not_found") ∧
    validateUpdateFields [("service_name", .uint32 4)]
      = some (.foreign
          "validateReposiroties.UpdateFields: invalid value for field service_name") ∧
    validateUpdateFields [("service_name", .str "Test Service")] = none :=
  ⟨rfl, rfl,
    (validateUpdateFields_accepts [("service_name", .str "Test Service")]).1.2 (by decide)⟩

/-! ## The map of a subscription -/

/-- C17: for every subscription, the keys of the map `SubscriptionToMap`
returns are service_name, user_id, price and start_date, 4 entries, when
`EndDate.Valid` is false, and those with end_date, 5 entries, when it is true;
no key occurs twice; the four base values are the fields of the struct; and
id, created_at and updated_at are not keys of the map. -/
theorem SubscriptionToMap_keys (Format : Time → String → String) (subs : Subscription) :
    (SubscriptionToMap Format subs).map Prod.fst
      = ["service_name", "user_id", "price", "start_date"]
        ++ (if subs.EndDate.Valid then ["end_date"] else []) ∧
    (SubscriptionToMap Format subs).length = (if subs.EndDate.Valid then 5 else 4) ∧
    ((SubscriptionToMap Format subs).map Prod.fst).Nodup ∧
    (SubscriptionToMap Format subs).lookup "service_name" = some (.str subs.ServiceName) ∧
    (SubscriptionToMap Format subs).lookup "user_id" = some (.uuid subs.UserId) ∧
    (SubscriptionToMap Format subs).lookup "price" = some (.uint32 subs.Price) ∧
    (SubscriptionToMap Format subs).lookup "start_date" = some (.time subs.StartDate) ∧
    "id" ∉ (SubscriptionToMap Format subs).map Prod.fst ∧
    "created_at" ∉ (SubscriptionToMap Format subs).map Prod.fst ∧
    "updated_at" ∉ (SubscriptionToMap Format subs).map Prod.fst := by
  cases hv : subs.EndDate.Valid <;>
    simp [SubscriptionToMap, mapSet, hv, List.lookup]

/-! ## Wrapping errors -/

/-- C18: for every non-nil error and every message, `Wrap` returns a non-nil
error whose text is the message, a colon and a space, and the text of the
wrapped error, so that it contains both, and whose `Unwrap` returns the wrapped
error; `Wrap` of nil is nil for every message. -/
theorem Wrap_keeps_messages (err : GoError) (m : String) :
    (∃ e, Wrap (some err) m = some e ∧ e.Error = m ++ ": " ++ err.Error ∧
      e.Unwrap = some err ∧ m.toList <:+: e.Error.toList ∧
      err.Error.toList <:+: e.Error.toList) ∧
    Wrap none m = none := by
  refine ⟨⟨.wrapped m err, rfl, rfl, rfl, ?_, ?_⟩, rfl⟩
  · have := contains_mid "" m (": " ++ err.Error)
    simpa [GoError.Error, String.append_assoc] using this
  · have := contains_mid (m ++ ": ") err.Error ""
    simpa [GoError.Error, String.append_assoc] using this

/-- The wrapping of the usecase test: the text of the wrapped error follows the
name of the operation. -/
theorem Wrap_test_text :
    (Wrap (some (New "error repo")) "SubscriptionUsecase.Create: repo exec").map GoError.Error
      = some "SubscriptionUsecase.Create: repo exec: error repo" :=
  rfl

/-- The loop of `errors.Is` accepts `ErrNotFound` for itself, by identity or by
its `Is` method. -/
theorem errorsIsLoop_ErrNotFound (same : GoError → GoError → Bool) :
    errorsIsLoop same ErrNotFound ErrNotFound = true := by
  rw [errorsIsLoop.eq_def]
  by_cases hs : same ErrNotFound ErrNotFound = true
  · simp [hs]
  · simp [hs, GoError.Is, ErrNotFound, New, GoError.Error]

/-- What the loop of `errors.Is` accepts, it accepts once wrapped. -/
theorem errorsIsLoop_wrapped (same : GoError → GoError → Bool) (target err : GoError)
    (m : String) (h : errorsIsLoop same target err = true) :
    errorsIsLoop same target (.wrapped m err) = true := by
  rw [errorsIsLoop.eq_def]
  by_cases hs : same (.wrapped m err) target = true
  · simp [hs]
  · by_cases hi : (GoError.wrapped m err).Is (some target) = true
    · simp [hs, hi]
    · simp only [hs, hi, Bool.false_eq_true, ↓reduceIte]
      exact h

/-- The `errors.Is` of two errors that are the same one. -/
theorem errorsIs_of_same (same : GoError → GoError → Bool) (err target : GoError)
    (h : same err target = true) : errorsIs same (some err) (some target) = true := by
  rw [errorsIs, errorsIsLoop.eq_def]
  simp [h]

/-- What the loop of `errors.Is` accepts, `errors.Is` accepts after any number
of wrappings. -/
theorem errorsIs_foldl_Wrap (same : GoError → GoError → Bool) (target : GoError)
    (msgs : List String) (err : GoError) (h : errorsIsLoop same target err = true) :
    errorsIs same (msgs.foldl Wrap (some err)) (some target) = true := by
  induction msgs generalizing err with
  | nil => simpa [errorsIs] using h
  | cons m ms ih =>
    simp only [List.foldl_cons, Wrap]
    exact ih _ (errorsIsLoop_wrapped same target err m h)

/-- C19: for every finite sequence of messages, the error obtained by applying
`Wrap` with them one after the other to `ErrNotFound` satisfies `errors.Is`
against `ErrNotFound`, whatever the identity of errors is. The repository
`GetByID` returns `ErrNotFound` when the scan fails with an error that is
`sql.ErrNoRows`, and the error the usecase `GetByID` then returns, that error
wrapped once, still satisfies `errors.Is` against `ErrNotFound`, the test of
the handler. -/
theorem notFound_survives_wrapping (same : GoError → GoError → Bool) (msgs : List String) :
    errorsIs same (msgs.foldl Wrap (some ErrNotFound)) (some ErrNotFound) = true ∧
    (∀ (r : subscriptionRepository) (id : Int) (query : String) (args : List Arg)
        (err : GoError),
      ((Select r.columnsSelect r.table).Where (.Eq "id" (.int64 id))).ToSql
        = .ok (query, args) →
      r.querier.QueryRowStructScan query args = .error err →
      errorsIs same (some err) (some sqlErrNoRows) = true →
      r.GetByID same id = .error ErrNotFound) ∧
    (∀ (repo : SubscriptionRepository) (id : Int),
      repo.GetByID id = .error ErrNotFound →
      (NewSubscriptionUsecase repo).GetByID id
        = .error (.wrapped "SubscriptionUsecase.GetByID: repo exec" ErrNotFound) ∧
      errorsIs same (some (.wrapped "SubscriptionUsecase.GetByID: repo exec" ErrNotFound))
        (some ErrNotFound) = true) := by
  refine ⟨errorsIs_foldl_Wrap same ErrNotFound msgs ErrNotFound
    (errorsIsLoop_ErrNotFound same), ?_, ?_⟩
  · intro r id query args err hb hq his
    simp [subscriptionRepository.GetByID, hb, hq, his]
  · intro repo id h
    refine ⟨by simp [SubscriptionUsecase.GetByID, NewSubscriptionUsecase, h], ?_⟩
    exact errorsIs_foldl_Wrap same ErrNotFound ["SubscriptionUsecase.GetByID: repo exec"]
      ErrNotFound (errorsIsLoop_ErrNotFound same)

/-- C19 on two wrappings, and on the repository of the test suite whose
one-row query fails with `sql.ErrNoRows`. -/
theorem notFound_survives_wrapping_witness :
    errorsIs sameError
      (["subscriptionRepositories", "SubscriptionUsecase"].foldl Wrap (some ErrNotFound))
      (some ErrNotFound) = true ∧
    (NewUserRepository (storeOf 0 ⟨[], none⟩)).GetByID sameError 1 = .error ErrNotFound ∧
    (NewSubscriptionUsecase
        (repositoryOf ((NewUserRepository (storeOf 0 ⟨[], none⟩)).GetByID sameError))).GetByID 1
      = .error (.wrapped "SubscriptionUsecase.GetByID: repo exec" ErrNotFound) ∧
    errorsIs sameError
      (some (.wrapped "SubscriptionUsecase.GetByID: repo exec" ErrNotFound))
      (some ErrNotFound) = true :=
  have h := notFound_survives_wrapping sameError
    ["subscriptionRepositories", "SubscriptionUsecase"]
  have hrepo := h.2.1 (NewUserRepository (storeOf 0 ⟨[], none⟩)) 1
    "SELECT id, service_name, user_id, price, start_date, end_date FROM subscription WHERE id = $1"
    [.int64 1] sqlErrNoRows rfl rfl
    (errorsIs_of_same sameError sqlErrNoRows sqlErrNoRows (by decide))
  ⟨h.1, hrepo,
    h.2.2 (repositoryOf ((NewUserRepository (storeOf 0 ⟨[], none⟩)).GetByID sameError)) 1 hrepo⟩

/-! ## Exactly one row affected -/

/-- The `Create` method returns nil exactly when the statement builds, its
execution succeeds and one row is affected. -/
theorem Create_nil_iff (r : subscriptionRepository) (Format : Time → String → String)
    (subs : Subscription) :
    r.Create Format subs = none ↔
      ∃ query args res,
        ((Insert r.table).SetMap (SubscriptionToMap Format subs)).ToSql = .ok (query, args) ∧
        r.querier.Exec query args = .ok res ∧ res.RowsAffected = .ok 1 := by
  simp only [subscriptionRepository.Create]
  cases hb : ((Insert r.table).SetMap (SubscriptionToMap Format subs)).ToSql with
  | error err => simp [Wrap]
  | ok qa =>
    obtain ⟨query, args⟩ := qa
    cases he : r.querier.Exec query args with
    | error err => simp [Wrap, he]
    | ok res =>
      cases hn : res.RowsAffected with
      | error err => simp [Wrap, he, hn]
      | ok n =>
        by_cases h1 : n = 1
        · subst h1
          simp only [he, hn]
          simp only [ne_eq, not_true_eq_false, ↓reduceIte, true_iff]
          exact ⟨query, args, res, rfl, he, hn⟩
        · simp [he, hn, h1]

/-- The `Create` method returns the "expected rowsAffected" error when the
statement is executed and the rows affected are not one. -/
theorem Create_not_one (r : subscriptionRepository) (Format : Time → String → String)
    (subs : Subscription)
    (query : String) (args : List Arg) (res : Result) (n : Int)
    (hb : ((Insert r.table).SetMap (SubscriptionToMap Format subs)).ToSql = .ok (query, args))
    (he : r.querier.Exec query args = .ok res) (hn : res.RowsAffected = .ok n)
    (h1 : n ≠ 1) :
    ∃ e, r.Create Format subs = some e ∧
      e.Error = "subscriptionRepositories.Create: expected rowsAffected " ++ toString n ∧
      "expected rowsAffected".toList <:+: e.Error.toList := by
  refine ⟨.foreign ("subscriptionRepositories.Create: expected rowsAffected " ++ toString n),
    by simp [subscriptionRepository.Create, hb, he, hn, h1], rfl, ?_⟩
  have := contains_mid "subscriptionRepositories.Create: " "expected rowsAffected"
    (" " ++ toString n)
  simpa [GoError.Error, String.append_assoc] using this

/-- The `Update` method returns nil exactly when the statement builds, its
execution succeeds and one row is affected. -/
theorem Update_nil_iff (r : subscriptionRepository) (now : Time) (id : Int)
    (fields : FieldMap)
    (hvalid : validateUpdateFields fields = none) :
    r.Update now id fields = none ↔
      ∃ query args res,
        (((SubscriptionService.Update r.table).Where (.Eq "id" (.int64 id))).SetMap
          (mapSet fields "updated_at" (.time now))).ToSql = .ok (query, args) ∧
        r.querier.Exec query args = .ok res ∧ res.RowsAffected = .ok 1 := by
  simp only [subscriptionRepository.Update, hvalid]
  cases hb : (((SubscriptionService.Update r.table).Where (.Eq "id" (.int64 id))).SetMap
          (mapSet fields "updated_at" (.time now))).ToSql with
  | error err => simp [Wrap]
  | ok qa =>
    obtain ⟨query, args⟩ := qa
    cases he : r.querier.Exec query args with
    | error err => simp [Wrap, he]
    | ok res =>
      cases hn : res.RowsAffected with
      | error err => simp [Wrap, he, hn]
      | ok n =>
        by_cases h1 : n = 1
        · subst h1
          simp only [he, hn]
          simp only [ne_eq, not_true_eq_false, ↓reduceIte, true_iff]
          exact ⟨query, args, res, rfl, he, hn⟩
        · simp [he, hn, h1]

/-- The `Update` method returns the "expected rowsAffected" error when the
statement is executed and the rows affected are not one. -/
theorem Update_not_one (r : subscriptionRepository) (now : Time) (id : Int)
    (fields : FieldMap)
    (query : String) (args : List Arg) (res : Result) (n : Int)
    (hvalid : validateUpdateFields fields = none)
    (hb : (((SubscriptionService.Update r.table).Where (.Eq "id" (.int64 id))).SetMap
          (mapSet fields "updated_at" (.time now))).ToSql = .ok (query, args))
    (he : r.querier.Exec query args = .ok res) (hn : res.RowsAffected = .ok n)
    (h1 : n ≠ 1) :
    ∃ e, r.Update now id fields = some e ∧
      e.Error = "subscriptionRepositories.Update: expected rowsAffected " ++ toString n ∧
      "expected rowsAffected".toList <:+: e.Error.toList := by
  refine ⟨.foreign ("subscriptionRepositories.Update: expected rowsAffected " ++ toString n),
    by simp [subscriptionRepository.Update, hvalid, hb, he, hn, h1], rfl, ?_⟩
  have := contains_mid "subscriptionRepositories.Update: " "expected rowsAffected"
    (" " ++ toString n)
  simpa [GoError.Error, String.append_assoc] using this

/-- The `Delete` method returns nil exactly when the statement builds, its
execution succeeds and one row is affected. -/
theorem Delete_nil_iff (r : subscriptionRepository) (id : Int) :
    r.Delete id = none ↔
      ∃ query args res,
        ((SubscriptionService.Delete r.table).Where (.Eq "id" (.int64 id))).ToSql = .ok (query, args) ∧
        r.querier.Exec query args = .ok res ∧ res.RowsAffected = .ok 1 := by
  simp only [subscriptionRepository.Delete]
  cases hb : ((SubscriptionService.Delete r.table).Where (.Eq "id" (.int64 id))).ToSql with
  | error err => simp [Wrap]
  | ok qa =>
    obtain ⟨query, args⟩ := qa
    cases he : r.querier.Exec query args with
    | error err => simp [Wrap, he]
    | ok res =>
      cases hn : res.RowsAffected with
      | error err => simp [Wrap, he, hn]
      | ok n =>
        by_cases h1 : n = 1
        · subst h1
          simp only [he, hn]
          simp only [ne_eq, not_true_eq_false, ↓reduceIte, true_iff]
          exact ⟨query, args, res, rfl, he, hn⟩
        · simp [he, hn, h1]

/-- The `Delete` method returns the "expected rowsAffected" error when the
statement is executed and the rows affected are not one. -/
theorem Delete_not_one (r : subscriptionRepository) (id : Int)
    (query : String) (args : List Arg) (res : Result) (n : Int)
    (hb : ((SubscriptionService.Delete r.table).Where (.Eq "id" (.int64 id))).ToSql = .ok (query, args))
    (he : r.querier.Exec query args = .ok res) (hn : res.RowsAffected = .ok n)
    (h1 : n ≠ 1) :
    ∃ e, r.Delete id = some e ∧
      e.Error = "subscriptionRepositories.Delete: expected rowsAffected " ++ toString n ∧
      "expected rowsAffected".toList <:+: e.Error.toList := by
  refine ⟨.foreign ("subscriptionRepositories.Delete: expected rowsAffected " ++ toString n),
    by simp [subscriptionRepository.Delete, hb, he, hn, h1], rfl, ?_⟩
  have := contains_mid "subscriptionRepositories.Delete: " "expected rowsAffected"
    (" " ++ toString n)
  simpa [GoError.Error, String.append_assoc] using this

/-- C20: with the store answering an execution by an error, or by a result whose
`RowsAffected` is an error or a count `n`, each of `Create`, `Update` on fields
that pass the validation, and `Delete` returns nil exactly when its statement
builds, the execution succeeds and `RowsAffected` gives 1; and whenever the
statement is executed and `RowsAffected` gives a count other than 1, it returns
the error "expected rowsAffected" with that count. -/
theorem exactly_one_row_affected (r : subscriptionRepository)
    (Format : Time → String → String) (subs : Subscription) (now : Time) (id : Int)
    (fields : FieldMap) (hvalid : validateUpdateFields fields = none) :
    (r.Create Format subs = none ↔
      ∃ query args res,
        ((Insert r.table).SetMap (SubscriptionToMap Format subs)).ToSql = .ok (query, args) ∧
        r.querier.Exec query args = .ok res ∧ res.RowsAffected = .ok 1) ∧
    (r.Update now id fields = none ↔
      ∃ query args res,
        (((SubscriptionService.Update r.table).Where (.Eq "id" (.int64 id))).SetMap
          (mapSet fields "updated_at" (.time now))).ToSql = .ok (query, args) ∧
        r.querier.Exec query args = .ok res ∧ res.RowsAffected = .ok 1) ∧
    (r.Delete id = none ↔
      ∃ query args res,
        ((SubscriptionService.Delete r.table).Where (.Eq "id" (.int64 id))).ToSql
          = .ok (query, args) ∧
        r.querier.Exec query args = .ok res ∧ res.RowsAffected = .ok 1) ∧
    (∀ query args res n,
      ((Insert r.table).SetMap (SubscriptionToMap Format subs)).ToSql = .ok (query, args) →
      r.querier.Exec query args = .ok res → res.RowsAffected = .ok n → n ≠ 1 →
      ∃ e, r.Create Format subs = some e ∧
        e.Error = "subscriptionRepositories.Create: expected rowsAffected " ++ toString n ∧
        "expected rowsAffected".toList <:+: e.Error.toList) ∧
    (∀ query args res n,
      (((SubscriptionService.Update r.table).Where (.Eq "id" (.int64 id))).SetMap
        (mapSet fields "updated_at" (.time now))).ToSql = .ok (query, args) →
      r.querier.Exec query args = .ok res → res.RowsAffected = .ok n → n ≠ 1 →
      ∃ e, r.Update now id fields = some e ∧
        e.Error = "subscriptionRepositories.Update: expected rowsAffected " ++ toString n ∧
        "expected rowsAffected".toList <:+: e.Error.toList) ∧
    (∀ query args res n,
      ((SubscriptionService.Delete r.table).Where (.Eq "id" (.int64 id))).ToSql
        = .ok (query, args) →
      r.querier.Exec query args = .ok res → res.RowsAffected = .ok n → n ≠ 1 →
      ∃ e, r.Delete id = some e ∧
        e.Error = "subscriptionRepositories.Delete: expected rowsAffected " ++ toString n ∧
        "expected rowsAffected".toList <:+: e.Error.toList) :=
  ⟨Create_nil_iff r Format subs, Update_nil_iff r now id fields hvalid, Delete_nil_iff r id,
    fun query args res n hb he hn h1 => Create_not_one r Format subs query args res n hb he hn h1,
    fun query args res n hb he hn h1 =>
      Update_not_one r now id fields query args res n hvalid hb he hn h1,
    fun query args res n hb he hn h1 => Delete_not_one r id query args res n hb he hn h1⟩

/-- C20 on the statements of the test suite: a store that affects one row makes
`Create`, `Update` and `Delete` return nil, and a store that affects none makes
`Delete` return the "expected rowsAffected" error. -/
theorem exactly_one_row_affected_witness :
    validateUpdateFields fieldsUpdate = none ∧
    (NewUserRepository (storeAffecting 1)).Create (fun _ _ => "") subTest = none ∧
    (NewUserRepository (storeAffecting 1)).Update ⟨0⟩ 1 fieldsUpdate = none ∧
    (NewUserRepository (storeAffecting 1)).Delete 1 = none ∧
    ∃ e, (NewUserRepository (storeAffecting 0)).Delete 1 = some e ∧
      e.Error = "subscriptionRepositories.Delete: expected rowsAffected " ++ toString (0 : Int) ∧
      "expected rowsAffected".toList <:+: e.Error.toList :=
  have h1 := exactly_one_row_affected (NewUserRepository (storeAffecting 1)) (fun _ _ => "")
    subTest ⟨0⟩ 1 fieldsUpdate rfl
  have h0 := exactly_one_row_affected (NewUserRepository (storeAffecting 0)) (fun _ _ => "")
    subTest ⟨0⟩ 1 fieldsUpdate rfl
  ⟨rfl,
    h1.1.2 ⟨"INSERT INTO subscription (price,service_name,start_date,user_id) " ++
      "VALUES ($1,$2,$3,$4)", [.uint32 100, .str "test service", .time ⟨0⟩, .uuid 7],
      ⟨.ok 1⟩, rfl, rfl, rfl⟩,
    h1.2.1.2 ⟨"UPDATE subscription SET service_name = $1, updated_at = $2 WHERE id = $3",
      [.str "Test service", .time ⟨0⟩, .int64 1], ⟨.ok 1⟩, rfl, rfl, rfl⟩,
    h1.2.2.1.2 ⟨"DELETE FROM subscription WHERE id = $1", [.int64 1], ⟨.ok 1⟩, rfl, rfl, rfl⟩,
    h0.2.2.2.2.2 "DELETE FROM subscription WHERE id = $1" [.int64 1] ⟨.ok 0⟩ 0 rfl rfl rfl
      (by decide)⟩

/-! ## The pagination rewrite over the whole range -/

/-- The full last page under the rewritten params does not pass the total. -/
theorem rewritten_product_le (totalCount limit : Nat) (hl : limit ≠ 0) :
    (totalCount / limit + 1) * (totalCount % limit) ≤ totalCount := by
  have hmod : totalCount % limit < limit := Nat.mod_lt _ (Nat.pos_of_ne_zero hl)
  have hdm := Nat.div_add_mod totalCount limit
  have h1 : totalCount / limit * (totalCount % limit) ≤ totalCount / limit * limit :=
    Nat.mul_le_mul_left _ (le_of_lt hmod)
  rw [Nat.add_mul, Nat.one_mul]
  have h2 : limit * (totalCount / limit) = totalCount / limit * limit := Nat.mul_comm _ _
  omega

/-- The kept window ends at `page * limit`. -/
theorem pred_mul_add (page limit : Nat) (hpage : 1 ≤ page) :
    (page - 1) * limit + limit = page * limit := by
  obtain ⟨k, rfl⟩ : ∃ k, page = k + 1 := ⟨page - 1, by omega⟩
  simp [Nat.succ_mul]

/-- The requested offset is the product `(page - 1) * limit` reduced modulo
`2 ^ 64`. -/
theorem usub_one_mul (page limit : Nat) (hpage : 1 ≤ page) :
    umul (usub page 1) limit = ((page - 1) * limit) % 2 ^ 64 := by
  have h1 : page + u64 - 1 = (page - 1) + u64 := by omega
  unfold umul usub
  rw [h1, Nat.add_mod_right, Nat.mod_mul_mod]
  rfl

/-- C21 as stated fails: page `2 ^ 62` with limit 4 over 5 rows has a product
that wraps to 0, the comparison fails, and OFFSET `2 ^ 64 - 4` is emitted with
LIMIT 4, an offset above the total. -/
theorem paginationList_clamped_counterexample :
    (1 ≤ 2 ^ 62 ∧ 1 ≤ 4 ∧ 2 ^ 62 < 2 ^ 64 ∧ 2 ^ 64 - 1 < 2 ^ 62 * 4) ∧
    paginationList testQuery 5 ⟨2 ^ 62, 4⟩
      = some ((testQuery.Limit 4).Offset (2 ^ 64 - 4), ⟨2 ^ 62, 4⟩) ∧
    ¬ 2 ^ 64 - 4 ≤ 5 ∧ ¬ 2 ^ 64 - 4 + 4 ≤ 5 := by
  decide

/-- C21, amended: for every page and limit that are at least 1 and every total
count, when the product `page * limit` does not exceed `2 ^ 64 - 1`, or when it
wraps and the total is still below the wrapped product, the OFFSET emitted by
`paginationList` is at most the total and `OFFSET + LIMIT ≤ totalCount`. -/
theorem paginationList_clamped (q : SelectBuilder) (page limit totalCount : Nat)
    (hpage : 1 ≤ page) (hlimit : 1 ≤ limit)
    (h : page * limit ≤ 2 ^ 64 - 1 ∨ totalCount < (page * limit) % 2 ^ 64) :
    ∃ lim off params, paginationList q totalCount ⟨page, limit⟩
        = some ((q.Limit lim).Offset off, params) ∧
      off ≤ totalCount ∧ off + lim ≤ totalCount := by
  by_cases hc : totalCount < umul page limit
  · have hmod : totalCount % limit ≤ totalCount := Nat.mod_le _ _
    exact ⟨_, _, _, paginationList_rewrite q totalCount page limit hc, by omega, by omega⟩
  · rcases h with h | h
    · have hlt : page * limit < u64 := by unfold u64; omega
      have hge : page * limit ≤ totalCount := by
        rw [umul_of_lt hlt] at hc; omega
      refine ⟨_, _, _, paginationList_keep q totalCount page limit hc, ?_, ?_⟩
      · rw [offset_of_no_overflow hpage hlimit hlt]
        have := pred_mul_add page limit hpage
        omega
      · rw [offset_of_no_overflow hpage hlimit hlt, pred_mul_add page limit hpage]
        exact hge
    · exact absurd h hc

/-- C21, amended, on a product that wraps and still redirects: page
`2 ^ 62 + 5` with limit 4 wraps to 20, and over 13 rows LIMIT 1 OFFSET 12 is
emitted. -/
theorem paginationList_clamped_witness :
    (1 ≤ 2 ^ 62 + 5 ∧ 1 ≤ 4 ∧
      ((2 ^ 62 + 5) * 4 ≤ 2 ^ 64 - 1 ∨ 13 < ((2 ^ 62 + 5) * 4) % 2 ^ 64)) ∧
    ∃ lim off params, paginationList testQuery 13 ⟨2 ^ 62 + 5, 4⟩
        = some ((testQuery.Limit lim).Offset off, params) ∧
      off ≤ 13 ∧ off + lim ≤ 13 :=
  ⟨by decide, paginationList_clamped testQuery (2 ^ 62 + 5) 4 13 (by decide) (by decide)
    (by decide)⟩

/-- C23 as stated fails: 4 rows with limit 4 are a multiple of the limit, and
page `2 ^ 62` has `4 < page * limit`, yet the product wraps to 0, the comparison
fails and LIMIT 4 is emitted with the params unchanged, where the claim has
LIMIT 0 and OFFSET 4. -/
theorem paginationList_exact_multiple_counterexample :
    (1 ≤ 4 ∧ 4 % 4 = 0 ∧ 1 ≤ 2 ^ 62 ∧ 2 ^ 62 < 2 ^ 64 ∧ 4 < 2 ^ 62 * 4) ∧
    paginationList testQuery 4 ⟨2 ^ 62, 4⟩
      = some ((testQuery.Limit 4).Offset (2 ^ 64 - 4), ⟨2 ^ 62, 4⟩) ∧
    paginationList testQuery 4 ⟨2 ^ 62, 4⟩
      ≠ some ((testQuery.Limit 0).Offset 4, ⟨4 / 4 + 1, 0⟩) := by
  decide

/-- C23, amended: for every limit that is at least 1 and every total count that
is a multiple of the limit, 0 included, a page for which the total is below the
product `page * limit` as `uint64` computes it, that is reduced modulo `2 ^ 64`,
makes `paginationList` emit LIMIT 0 and OFFSET `totalCount` and rewrite the
params to `Limit = 0` and `Page = totalCount / limit + 1`; whereas a page that
is at least 1 with `page * limit = totalCount` exactly leaves the request
unchanged, with LIMIT `limit` and OFFSET `(page - 1) * limit`. -/
theorem paginationList_exact_multiple (q : SelectBuilder) (page limit totalCount : Nat)
    (hlimit : 1 ≤ limit) (hmult : totalCount % limit = 0) :
    (totalCount < (page * limit) % 2 ^ 64 →
      paginationList q totalCount ⟨page, limit⟩
        = some ((q.Limit 0).Offset totalCount, ⟨totalCount / limit + 1, 0⟩)) ∧
    (1 ≤ page → page * limit = totalCount → totalCount ≤ 2 ^ 64 - 1 →
      paginationList q totalCount ⟨page, limit⟩
        = some ((q.Limit limit).Offset ((page - 1) * limit), ⟨page, limit⟩)) := by
  constructor
  · intro h
    rw [paginationList_rewrite q totalCount page limit h, hmult, Nat.sub_zero]
  · intro hpage heq hrange
    have hlt : page * limit < u64 := by unfold u64; omega
    have hkeep : ¬ totalCount < umul page limit := by rw [umul_of_lt hlt]; omega
    rw [paginationList_keep q totalCount page limit hkeep,
      offset_of_no_overflow hpage hlimit hlt]

/-- C23, amended, on limit 20: page 3 over 40 rows gets the zero-sized page
LIMIT 0 OFFSET 40, and page 3 over 60 rows, the boundary of the test suite, is
left unchanged. -/
theorem paginationList_exact_multiple_witness :
    paginationList testQuery 40 ⟨3, 20⟩
      = some ((testQuery.Limit 0).Offset 40, ⟨40 / 20 + 1, 0⟩) ∧
    paginationList testQuery 60 ⟨3, 20⟩
      = some ((testQuery.Limit 20).Offset ((3 - 1) * 20), ⟨3, 20⟩) :=
  ⟨(paginationList_exact_multiple testQuery 3 20 40 (by decide) (by decide)).1 (by decide),
    (paginationList_exact_multiple testQuery 3 20 60 (by decide) (by decide)).2 (by decide)
      (by decide) (by decide)⟩

/-- C27: for every page, limit and total count, `paginationList` returns, and a
second run with the same total on the params it wrote back does not take the
correction branch and leaves `Page` and `Limit` as they are. -/
theorem paginationList_idempotent (q q' : SelectBuilder) (page limit totalCount : Nat) :
    ∃ query params, paginationList q totalCount ⟨page, limit⟩ = some (query, params) ∧
      ¬ totalCount < (params.Page * params.Limit) % 2 ^ 64 ∧
      ∃ query', paginationList q' totalCount params = some (query', params) := by
  by_cases hc : totalCount < umul page limit
  · have hl : limit ≠ 0 := limit_ne_zero_of_lt hc
    have hkeep : ¬ totalCount < umul ((totalCount - totalCount % limit) / limit + 1)
        (totalCount % limit) := by
      rw [sub_mod_div]
      have h1 := rewritten_product_le totalCount limit hl
      have h2 : umul (totalCount / limit + 1) (totalCount % limit)
          ≤ (totalCount / limit + 1) * (totalCount % limit) := Nat.mod_le _ _
      omega
    exact ⟨_, _, paginationList_rewrite q totalCount page limit hc, hkeep,
      _, paginationList_keep q' totalCount _ _ hkeep⟩
  · exact ⟨_, _, paginationList_keep q totalCount page limit hc, hc,
      _, paginationList_keep q' totalCount page limit hc⟩

/-- The second run of the test suite's out-of-range case: 13 rows, page 8 with
limit 20, rewritten to page 1 with limit 13, which a second run keeps. -/
theorem paginationList_idempotent_test :
    paginationList testQuery 13 ⟨8, 20⟩ = some ((testQuery.Limit 13).Offset 0, ⟨1, 13⟩) ∧
    paginationList testQuery 13 ⟨1, 13⟩ = some ((testQuery.Limit 13).Offset 0, ⟨1, 13⟩) := by
  decide

/-- C28 as stated fails: page 6148914691236517207 with limit 3 over 5 rows has
`(page - 1) * limit = 2 ^ 64 + 2`, the offset wraps to 2 and the comparison
with the wrapped product 5 fails; OFFSET 2 is emitted, which is not a multiple
of the limit 3. -/
theorem paginationList_aligned_counterexample :
    (1 ≤ 6148914691236517207 ∧ 1 ≤ 3 ∧ 6148914691236517207 < 2 ^ 63) ∧
    paginationList testQuery 5 ⟨6148914691236517207, 3⟩
      = some ((testQuery.Limit 3).Offset 2, ⟨6148914691236517207, 3⟩) ∧
    2 = ((6148914691236517207 - 1) * 3) % 2 ^ 64 ∧ ¬ 3 ∣ 2 := by
  decide

/-- C28, amended: for every page that is at least 1, every limit and every
total count, the OFFSET emitted by `paginationList` equals
`(Page_after - 1) * limit_requested` modulo `2 ^ 64`; and it is a multiple of
the requested limit whenever `(page - 1) * limit` does not exceed `2 ^ 64 - 1`
or the correction branch is taken. -/
theorem paginationList_aligned (q : SelectBuilder) (page limit totalCount : Nat)
    (hpage : 1 ≤ page) :
    ∃ lim off params, paginationList q totalCount ⟨page, limit⟩
        = some ((q.Limit lim).Offset off, params) ∧
      off = ((params.Page - 1) * limit) % 2 ^ 64 ∧
      (((page - 1) * limit ≤ 2 ^ 64 - 1 ∨ totalCount < (page * limit) % 2 ^ 64) →
        limit ∣ off) := by
  by_cases hc : totalCount < umul page limit
  · have hlt : totalCount < u64 := lt_trans hc (umul_lt _ _)
    have hoff : totalCount - totalCount % limit = totalCount / limit * limit := by
      have := Nat.div_add_mod totalCount limit
      have h2 : limit * (totalCount / limit) = totalCount / limit * limit := Nat.mul_comm _ _
      omega
    refine ⟨_, _, _, paginationList_rewrite q totalCount page limit hc, ?_, fun _ => ?_⟩
    · simp only [Nat.add_sub_cancel, sub_mod_div]
      rw [hoff]
      have hle : totalCount / limit * limit ≤ totalCount := Nat.div_mul_le_self _ _
      exact (Nat.mod_eq_of_lt (by unfold u64 at hlt; omega)).symm
    · rw [hoff]
      exact Dvd.intro_left _ rfl
  · refine ⟨_, _, _, paginationList_keep q totalCount page limit hc,
      usub_one_mul page limit hpage, fun h => ?_⟩
    rcases h with h | h
    · rw [usub_one_mul page limit hpage, Nat.mod_eq_of_lt (by omega)]
      exact Dvd.intro_left _ rfl
    · exact absurd h hc

/-- C28, amended, on the middle page of the test suite: 68 rows, page 2 with
limit 20, OFFSET 20. -/
theorem paginationList_aligned_witness :
    1 ≤ 2 ∧
    ∃ lim off params, paginationList testQuery 68 ⟨2, 20⟩
        = some ((testQuery.Limit lim).Offset off, params) ∧
      off = ((params.Page - 1) * 20) % 2 ^ 64 ∧
      (((2 - 1) * 20 ≤ 2 ^ 64 - 1 ∨ 68 < (2 * 20) % 2 ^ 64) → 20 ∣ off) :=
  ⟨by decide, paginationList_aligned testQuery 2 20 68 (by decide)⟩

/-- C29 as stated fails: page `2 ^ 62` with limit 4 over 5 rows has
`5 < page * limit`, yet the product wraps to 0, the comparison fails and the
params stay page `2 ^ 62` and limit 4, where the claim has page `5 / 4 + 1 = 2`
and a limit below 4. -/
theorem paginationList_backwards_counterexample :
    (1 ≤ 2 ^ 62 ∧ 1 ≤ 4 ∧ 2 ^ 62 < 2 ^ 64 ∧ 5 < 2 ^ 62 * 4) ∧
    paginationList testQuery 5 ⟨2 ^ 62, 4⟩
      = some ((testQuery.Limit 4).Offset (2 ^ 64 - 4), ⟨2 ^ 62, 4⟩) ∧
    2 ^ 62 ≠ 5 / 4 + 1 ∧ ¬ 4 < 4 := by
  decide

/-- C29, amended: for every page, limit and total count such that the total is
below the product `page * limit` as `uint64` computes it, that is reduced
modulo `2 ^ 64` (which forces page and limit to be at least 1), the page
written back by `paginationList` is `totalCount / limit + 1` and is at most the
requested page, and the limit written back is strictly below the requested
limit. -/
theorem paginationList_backwards (q : SelectBuilder) (page limit totalCount : Nat)
    (h : totalCount < (page * limit) % 2 ^ 64) :
    ∃ query params, paginationList q totalCount ⟨page, limit⟩ = some (query, params) ∧
      params.Page = totalCount / limit + 1 ∧ params.Page ≤ page ∧ params.Limit < limit := by
  have hl : limit ≠ 0 := limit_ne_zero_of_lt h
  have hpos : 0 < limit := Nat.pos_of_ne_zero hl
  have hprod : totalCount < page * limit := lt_of_lt_of_le h (Nat.mod_le _ _)
  have hdiv : totalCount / limit < page := (Nat.div_lt_iff_lt_mul hpos).2 hprod
  refine ⟨_, _, paginationList_rewrite q totalCount page limit h, ?_, ?_, ?_⟩
  · simp only [sub_mod_div]
  · simp only [sub_mod_div]; omega
  · exact Nat.mod_lt _ hpos

/-- C29, amended, on 13 rows, page 8 with limit 20: page 1 and limit 13 are
written back. -/
theorem paginationList_backwards_witness :
    13 < (8 * 20) % 2 ^ 64 ∧
    ∃ query params, paginationList testQuery 13 ⟨8, 20⟩ = some (query, params) ∧
      params.Page = 13 / 20 + 1 ∧ params.Page ≤ 8 ∧ params.Limit < 20 :=
  ⟨by decide, paginationList_backwards testQuery 8 20 13 (by decide)⟩

/-! ## The address of the server -/

/-- C22 as stated fails: for the host `::1`, which contains a colon, and the port
1111 the address becomes `[::1]:1111`, not the host, a colon and the port. -/
theorem Address_counterexample :
    (Address "::1" 1111 serverTest).address = "[::1]:1111" ∧
    (Address "::1" 1111 serverTest).address ≠ "::1" ++ ":" ++ toString 1111 := by
  decide

/-- C22, amended: for every host and every port, applying `Address` to a server
sets its address to the host, a colon and the decimal rendering of the port
when the host contains no colon, and to the host in square brackets, a colon
and the port when it contains one, as `net.JoinHostPort` joins them; no other
field of the server changes. -/
theorem Address_sets_address {ρ : Type} (host : String) (port : Nat) (s : Server ρ) :
    (':' ∉ host.toList →
      Address host port s = { s with address := host ++ ":" ++ toString port }) ∧
    (':' ∈ host.toList →
      Address host port s = { s with address := "[" ++ host ++ "]:" ++ toString port }) ∧
    (Address host port s).prefork = s.prefork ∧
    (Address host port s).readTimeout = s.readTimeout ∧
    (Address host port s).writeTimeout = s.writeTimeout ∧
    (Address host port s).shutdownTimeout = s.shutdownTimeout ∧
    (Address host port s).rest = s.rest := by
  refine ⟨fun h => ?_, fun h => ?_, rfl, rfl, rfl, rfl, rfl⟩
  · simp only [Address, JoinHostPort, if_neg h]
  · simp only [Address, JoinHostPort, if_pos h]

/-- C22, amended, on the option test: localhost and port 1111. -/
theorem Address_sets_address_witness :
    ':' ∉ "localhost".toList ∧
    Address "localhost" 1111 serverTest
      = { serverTest with address := "localhost" ++ ":" ++ toString 1111 } ∧
    (Address "localhost" 1111 serverTest).address = "localhost:1111" :=
  ⟨by decide, (Address_sets_address "localhost" 1111 serverTest).1 (by decide), by decide⟩

/-! ## The pagination of the list request -/

/-- The conversion of a non-zero `int` to `uint64` is not zero. -/
theorem toUint64_ne_zero (i : Int) (h0 : i ≠ 0) (hlo : -2 ^ 63 ≤ i) (hhi : i < 2 ^ 63) :
    toUint64 i ≠ 0 := by
  unfold toUint64
  norm_num at hlo hhi ⊢
  omega

/-- C24: for every `QueryParamList`, with any `int` values of `Page` and
`Limit`, on which the conversion succeeds, the pagination of the criteria has
`Page` equal to 1 when `params.Page` is 0 and to `uint64(params.Page)`
otherwise, `Limit` equal to 20 when `params.Limit` is 0 and to
`uint64(params.Limit)` otherwise, so that neither is 0; and an empty `SortBy`
becomes id, an empty `SortOrder` becomes ASC. -/
theorem convert_pagination_nonzero (Parse : String → Option UUID)
    (timeParse : String → String → Option Time) (params : QueryParamList)
    (qc : QueryCriteria)
    (hconv : SubscriptionQueryParamsToQueryCriteria Parse timeParse params = .ok qc)
    (hpage : -2 ^ 63 ≤ params.Page ∧ params.Page < 2 ^ 63)
    (hlimit : -2 ^ 63 ≤ params.Limit ∧ params.Limit < 2 ^ 63) :
    qc.Pagination.Page = (if params.Page = 0 then 1 else toUint64 params.Page) ∧
    qc.Pagination.Limit = (if params.Limit = 0 then 20 else toUint64 params.Limit) ∧
    qc.Pagination.Page ≠ 0 ∧ qc.Pagination.Limit ≠ 0 ∧
    (params.SortBy = "" → qc.Sorting.SortBy = "id") ∧
    (params.SortOrder = "" → qc.Sorting.SortOrder = "ASC") := by
  obtain ⟨hsort, hpag⟩ := convert_sorting_pagination Parse timeParse params qc hconv
  refine ⟨by rw [hpag], by rw [hpag], ?_, ?_, fun h => ?_, fun h => ?_⟩
  · rw [hpag]
    by_cases h : params.Page = 0
    · simp [h]
    · simpa [h] using toUint64_ne_zero params.Page h hpage.1 hpage.2
  · rw [hpag]
    by_cases h : params.Limit = 0
    · simp [h]
    · simpa [h] using toUint64_ne_zero params.Limit h hlimit.1 hlimit.2
  · rw [hsort]; simp [h, SortTypeID]
  · rw [hsort]; simp [h, SortOrderTypeAsc]

/-- C24 on a request without query parameters, and on one asking for page 3
with 50 rows a page: the conversion succeeds. -/
theorem convert_pagination_nonzero_witness :
    SubscriptionQueryParamsToQueryCriteria (fun _ => none) (fun _ _ => none)
        ⟨"", "", "", "", "", "", 0, 0⟩
      = .ok ⟨noFilter, ⟨1, 20⟩, ⟨"id", "ASC"⟩⟩ ∧
    SubscriptionQueryParamsToQueryCriteria (fun _ => none) (fun _ _ => none)
        ⟨"", "", "", "", "", "", 3, 50⟩
      = .ok ⟨noFilter, ⟨3, 50⟩, ⟨"id", "ASC"⟩⟩ ∧
    (3 : Nat) ≠ 0 ∧ (50 : Nat) ≠ 0 :=
  have h := convert_pagination_nonzero (fun _ => none) (fun _ _ => none)
    ⟨"", "", "", "", "", "", 3, 50⟩ ⟨noFilter, ⟨3, 50⟩, ⟨"id", "ASC"⟩⟩ rfl
    (by decide) (by decide)
  ⟨rfl, rfl, h.2.2.1, h.2.2.2.1⟩

/-! ## The usecase checks existence first -/

/-- C25: over any repository, when `GetByID` returns an error the usecase
`Update` and `Delete` return that error wrapped with "repo getById" under their
name and have called `GetByID` only, not the `Update` or the `Delete` of the
repository; when `GetByID` succeeds they call the operation of the repository
after it, return nil exactly when the operation returns nil, and return its
error wrapped with "repo exec" otherwise. -/
theorem usecase_checks_existence (repo : SubscriptionRepository) (id : Int)
    (fields : FieldMap) :
    (∀ err, repo.GetByID id = .error err →
      (NewSubscriptionUsecase repo).Update id fields
        = (some (.wrapped "SubscriptionUsecase.Update: repo getById" err), [.GetByID id]) ∧
      (NewSubscriptionUsecase repo).Delete id
        = (some (.wrapped "SubscriptionUsecase.Delete: repo getById" err), [.GetByID id])) ∧
    (∀ sub, repo.GetByID id = .ok sub →
      (((NewSubscriptionUsecase repo).Update id fields).1 = none
        ↔ repo.Update id fields = none) ∧
      (∀ err, repo.Update id fields = some err →
        ((NewSubscriptionUsecase repo).Update id fields).1
          = some (.wrapped "SubscriptionUsecase.Update: repo exec" err)) ∧
      ((NewSubscriptionUsecase repo).Update id fields).2
        = [.GetByID id, .Update id fields] ∧
      (((NewSubscriptionUsecase repo).Delete id).1 = none ↔ repo.Delete id = none) ∧
      (∀ err, repo.Delete id = some err →
        ((NewSubscriptionUsecase repo).Delete id).1
          = some (.wrapped "SubscriptionUsecase.Delete: repo exec" err)) ∧
      ((NewSubscriptionUsecase repo).Delete id).2 = [.GetByID id, .Delete id]) := by
  constructor
  · intro err h
    simp [SubscriptionUsecase.Update, SubscriptionUsecase.Delete, NewSubscriptionUsecase, h,
      Wrap]
  · intro sub h
    refine ⟨?_, ?_, ?_, ?_, ?_, ?_⟩
    · cases hu : repo.Update id fields <;>
        simp [SubscriptionUsecase.Update, NewSubscriptionUsecase, h, hu, Wrap]
    · intro err hu
      simp [SubscriptionUsecase.Update, NewSubscriptionUsecase, h, hu, Wrap]
    · cases hu : repo.Update id fields <;>
        simp [SubscriptionUsecase.Update, NewSubscriptionUsecase, h, hu]
    · cases hd : repo.Delete id <;>
        simp [SubscriptionUsecase.Delete, NewSubscriptionUsecase, h, hd, Wrap]
    · intro err hd
      simp [SubscriptionUsecase.Delete, NewSubscriptionUsecase, h, hd, Wrap]
    · cases hd : repo.Delete id <;>
        simp [SubscriptionUsecase.Delete, NewSubscriptionUsecase, h, hd]

/-- C25 on the repositories of the usecase tests: one that does not find the
subscription, one whose operation fails with "error repo", and one that
succeeds. -/
theorem usecase_checks_existence_witness :
    (NewSubscriptionUsecase (mockRepository (.error ErrNotFound) none)).Update 1 fieldsUpdate
      = (some (.wrapped "SubscriptionUsecase.Update: repo getById" ErrNotFound),
          [.GetByID 1]) ∧
    ((NewSubscriptionUsecase
        (mockRepository (.ok subTest) (some (New "error repo")))).Delete 1).1
      = some (.wrapped "SubscriptionUsecase.Delete: repo exec" (New "error repo")) ∧
    ((NewSubscriptionUsecase (mockRepository (.ok subTest) none)).Update 1 fieldsUpdate).1
      = none :=
  ⟨((usecase_checks_existence (mockRepository (.error ErrNotFound) none) 1 fieldsUpdate).1
      ErrNotFound rfl).1,
    ((usecase_checks_existence (mockRepository (.ok subTest) (some (New "error repo"))) 1
      fieldsUpdate).2 subTest rfl).2.2.2.2.1 (New "error repo") rfl,
    ((usecase_checks_existence (mockRepository (.ok subTest) none) 1 fieldsUpdate).2
      subTest rfl).1.2 rfl⟩

/-! ## The id of the path -/

/-- C26: for every path parameter, whatever `strconv.ParseInt` reads in it, the
middleware stores an id and calls the next handler exactly when the parameter
parses as a base-10 signed 64-bit integer of value at least 1, the id stored
being that value; a parameter that does not parse is answered with status 400,
and one that parses to a value below 1 with status 422 and the message
"Invalid id: must be a positive integer", the next handler not being called in
either case. -/
theorem ValidatedQueryIdMiddleware_positive (ParseInt : String → Option Int) (s : String) :
    (∀ id, ValidatedQueryIdMiddleware ParseInt s = .next id
      ↔ (ParseInt s = some id ∧ 1 ≤ id)) ∧
    (ParseInt s = none →
      ValidatedQueryIdMiddleware ParseInt s = .errorResponse 400 "invalid request body") ∧
    (∀ id, ParseInt s = some id → id < 1 →
      ValidatedQueryIdMiddleware ParseInt s
        = .errorResponse 422 "Invalid id: must be a positive integer") := by
  refine ⟨fun id => ?_, fun h => ?_, fun id h hlt => ?_⟩
  · cases hp : ParseInt s with
    | none => simp [ValidatedQueryIdMiddleware, hp]
    | some v =>
      by_cases hv : v < 1
      · simp only [ValidatedQueryIdMiddleware, hp, if_pos hv]
        constructor
        · intro h; cases h
        · rintro ⟨h, hid⟩
          cases h
          omega
      · simp only [ValidatedQueryIdMiddleware, hp, if_neg hv]
        constructor
        · intro h
          cases h
          exact ⟨rfl, by omega⟩
        · rintro ⟨h, -⟩
          cases h
          rfl
  · simp [ValidatedQueryIdMiddleware, h, StatusBadRequest]
  · simp [ValidatedQueryIdMiddleware, h, hlt, StatusUnprocessableEntity]

/-- C26 with the decimal reader on four parameters: 12 reaches the next
handler, abc and a value past the 64-bit range are answered with 400, 0 and -3
with 422. -/
theorem ValidatedQueryIdMiddleware_positive_witness :
    ValidatedQueryIdMiddleware parseInt10 "12" = .next 12 ∧
    ValidatedQueryIdMiddleware parseInt10 "abc"
      = .errorResponse 400 "invalid request body" ∧
    ValidatedQueryIdMiddleware parseInt10 "9223372036854775808"
      = .errorResponse 400 "invalid request body" ∧
    ValidatedQueryIdMiddleware parseInt10 "0"
      = .errorResponse 422 "Invalid id: must be a positive integer" ∧
    ValidatedQueryIdMiddleware parseInt10 "-3"
      = .errorResponse 422 "Invalid id: must be a positive integer" :=
  ⟨((ValidatedQueryIdMiddleware_positive parseInt10 "12").1 12).2 ⟨by decide, by decide⟩,
    (ValidatedQueryIdMiddleware_positive parseInt10 "abc").2.1 (by decide),
    (ValidatedQueryIdMiddleware_positive parseInt10 "9223372036854775808").2.1 (by decide),
    (ValidatedQueryIdMiddleware_positive parseInt10 "0").2.2 0 (by decide) (by decide),
    (ValidatedQueryIdMiddleware_positive parseInt10 "-3").2.2 (-3) (by decide) (by decide)⟩

/-! ## The map of the update request -/

/-- The map `SubscriptionRequestToMap` returns: the three fields of the request,
the parsed start, and the parsed end when the request has one. -/
theorem requestToMap_ok (timeParse : String → String → Option Time)
    (req : SubscriptionUpdateReq) (m : FieldMap)
    (h : SubscriptionRequestToMap timeParse req = .ok m) :
    ∃ start, timeParse "01-2006" req.StartDate = some start ∧
      ((req.EndDate = "" ∧
          m = [("service_name", .str req.ServiceName), ("user_id", .uuid req.UserId),
            ("price", .uint32 req.Price), ("start_date", .time start)]) ∨
        (req.EndDate ≠ "" ∧ ∃ stop, timeParse "01-2006" req.EndDate = some stop ∧
          m = [("service_name", .str req.ServiceName), ("user_id", .uuid req.UserId),
            ("price", .uint32 req.Price), ("start_date", .time start),
            ("end_date", .time stop)])) := by
  simp only [SubscriptionRequestToMap] at h
  cases hs : timeParse "01-2006" req.StartDate with
  | none => simp [hs] at h
  | some start =>
    refine ⟨start, rfl, ?_⟩
    simp only [hs] at h
    by_cases he : req.EndDate = ""
    · left
      simp [he, mapSet] at h
      exact ⟨he, h.symm⟩
    · right
      cases hp : timeParse "01-2006" req.EndDate with
      | none => simp [he, hp] at h
      | some stop =>
        simp [he, hp, mapSet] at h
        exact ⟨he, stop, rfl, h.symm⟩

/-- C30: for every update request on which `SubscriptionRequestToMap` returns a
map without error, `validateUpdateFields` of that map returns nil, every key
being an update field and every value of the type its validator asks for; the
keys of the map are service_name, user_id, price and start_date, and end_date
exactly when `req.EndDate` is not empty; the first three carry the values of
the request and the dates are the parsed ones. -/
theorem requestToMap_validates (timeParse : String → String → Option Time)
    (req : SubscriptionUpdateReq) (m : FieldMap)
    (h : SubscriptionRequestToMap timeParse req = .ok m) :
    validateUpdateFields m = none ∧
    (∀ kv ∈ m, kv.1 ∈ updateKeys ∧ fieldAccepted kv.1 kv.2 = true) ∧
    m.map Prod.fst
      = ["service_name", "user_id", "price", "start_date"]
        ++ (if req.EndDate ≠ "" then ["end_date"] else []) ∧
    ("end_date" ∈ m.map Prod.fst ↔ req.EndDate ≠ "") ∧
    m.lookup "service_name" = some (.str req.ServiceName) ∧
    m.lookup "user_id" = some (.uuid req.UserId) ∧
    m.lookup "price" = some (.uint32 req.Price) ∧
    (∃ start, timeParse "01-2006" req.StartDate = some start ∧
      m.lookup "start_date" = some (.time start)) ∧
    (req.EndDate ≠ "" → ∃ stop, timeParse "01-2006" req.EndDate = some stop ∧
      m.lookup "end_date" = some (.time stop)) := by
  obtain ⟨start, hs, ⟨he, hm⟩ | ⟨he, stop, hp, hm⟩⟩ := requestToMap_ok timeParse req m h
  · subst hm
    refine ⟨?_, ?_, ?_, ?_, ?_, ?_, ?_, ⟨start, hs, ?_⟩, ?_⟩
    · rw [validate_none_iff]; simp [fieldAccepted]
    · simp [fieldAccepted, updateKeys]
    · simp [he]
    · simp [he]
    · simp [List.lookup]
    · simp [List.lookup]
    · simp [List.lookup]
    · simp [List.lookup]
    · intro hne; exact absurd he hne
  · subst hm
    refine ⟨?_, ?_, ?_, ?_, ?_, ?_, ?_, ⟨start, hs, ?_⟩, ?_⟩
    · rw [validate_none_iff]; simp [fieldAccepted]
    · simp [fieldAccepted, updateKeys]
    · simp [he]
    · simp [he]
    · simp [List.lookup]
    · simp [List.lookup]
    · simp [List.lookup]
    · simp [List.lookup]
    · intro _; exact ⟨stop, hp, by simp [List.lookup]⟩

/-- C30 on the request of the examples: the conversion succeeds with five
entries and the validation of the repository accepts them. -/
theorem requestToMap_validates_witness :
    SubscriptionRequestToMap timeParseTest reqTest
      = .ok [("service_name", .str "TestService"), ("user_id", .uuid userIdTest),
          ("price", .uint32 100), ("start_date", .time ⟨1007164800000000000⟩),
          ("end_date", .time ⟨1038700800000000000⟩)] ∧
    validateUpdateFields [("service_name", .str "TestService"), ("user_id", .uuid userIdTest),
      ("price", .uint32 100), ("start_date", .time ⟨1007164800000000000⟩),
      ("end_date", .time ⟨1038700800000000000⟩)] = none :=
  ⟨rfl, (requestToMap_validates timeParseTest reqTest
    [("service_name", .str "TestService"), ("user_id", .uuid userIdTest),
      ("price", .uint32 100), ("start_date", .time ⟨1007164800000000000⟩),
      ("end_date", .time ⟨1038700800000000000⟩)] rfl).1⟩

end SubscriptionService
